import Mathlib

/-!
Verification development for the WooCommerce technology fingerprinting crawler
(`src/Scripts/extract_woo_plugins_from_website.py`).

The Python analyzer is shallowly embedded: every helper below is translated
from the source.  Python `set` fields are modelled as duplicate-free lists in
insertion order (CPython set iteration order is unspecified; where a claim's
outcome could depend on it, the accompanying comment says so).  Python regular
expressions used by the script are embedded as explicit scanning functions on
`List Char`, following `re.search`/`re.findall` leftmost-match semantics for
the concrete patterns appearing in the source.
-/

namespace Woo

/-- Substring test on character lists, Python's `pat in s`. -/
def listContains : List Char → List Char → Bool
  | [], pat => pat.isEmpty
  | c :: rest, pat => pat.isPrefixOf (c :: rest) || listContains rest pat

/-- Python `pat in s` on strings. -/
def strContains (s pat : String) : Bool :=
  listContains s.data pat.data

/-- Python `str.lower()` (ASCII range, enough for the identifiers involved). -/
def strLower (s : String) : String :=
  ⟨s.data.map Char.toLower⟩

/-- Python `s.startswith(pre)` (structural, so that concrete runs compute
inside the kernel). -/
def strStarts (s pre : String) : Bool :=
  pre.data.isPrefixOf s.data

/-- Python `s.strip()` on the character list (ASCII whitespace characters). -/
def trimChars (l : List Char) : List Char :=
  ((l.dropWhile Char.isWhitespace).reverse.dropWhile Char.isWhitespace).reverse

/-- Python `s.strip()`. -/
def strTrim (s : String) : String :=
  ⟨trimChars s.data⟩

/-- Worker for `str.replace`: left-to-right, non-overlapping, all
occurrences.  One fuel unit per character position suffices since every step
consumes at least one character (the patterns used by the script are all
nonempty). -/
def replaceGo (pat rep : List Char) : Nat → List Char → List Char
  | _, [] => []
  | 0, s => s
  | fuel + 1, c :: rest =>
    if pat ≠ [] ∧ pat.isPrefixOf (c :: rest) then
      rep ++ replaceGo pat rep fuel ((c :: rest).drop pat.length)
    else c :: replaceGo pat rep fuel rest

/-- Python `s.replace(pat, rep)` for nonempty `pat`. -/
def strReplace (s pat rep : String) : String :=
  ⟨replaceGo pat.data rep.data s.data.length s.data⟩

/-- Insert into an ascending list (code-point order, as Python `sorted`). -/
def insSorted (x : String) : List String → List String
  | [] => [x]
  | y :: ys => if decide (x ≤ y) then x :: y :: ys else y :: insSorted x ys

/-- Python `sorted` on strings (the sorted keys are pairwise distinct here,
so any correct ascending sort agrees with CPython's). -/
def sortStrings (l : List String) : List String :=
  l.foldr insSorted []

/-- One `set.add`: appends the element only when absent (insertion order kept). -/
def sinsert {α : Type} [DecidableEq α] (x : α) (l : List α) : List α :=
  if x ∈ l then l else l ++ [x]

/-- Whether a character is allowed in `[a-z0-9-_]` (the custom-post-type class). -/
def isSlugChar (c : Char) : Bool :=
  ('a' ≤ c ∧ c ≤ 'z') ∨ ('0' ≤ c ∧ c ≤ '9') ∨ c = '-' ∨ c = '_'

/-- Whether a character is allowed in `[a-zA-Z0-9_-]` (the shortcode name class). -/
def isShortcodeChar (c : Char) : Bool :=
  c.isAlpha ∨ c.isDigit ∨ c = '_' ∨ c = '-'

/-- Attempt of the directory regexes (`/wp-content/plugins/([^/]+)/` and
friends) at one fixed position: the literal prefix, then a nonempty run of
non-`/` characters, then `/`; returns the captured segment. -/
def segHere (pre : List Char) (s : List Char) : Option String :=
  if pre.isPrefixOf s then
    let rest := s.drop pre.length
    let seg := rest.takeWhile (fun c => c ≠ '/')
    if seg ≠ [] ∧ (rest.drop seg.length).head? = some '/' then some ⟨seg⟩ else none
  else none

/-- `re.search` over all start positions for a directory pattern. -/
def segSearch (pre : List Char) : List Char → Option String
  | [] => segHere pre []
  | c :: rest =>
    match segHere pre (c :: rest) with
    | some g => some g
    | none => segSearch pre rest

/-- Search one asset URL with one path pattern, e.g. `/wp-content/plugins/([^/]+)/`.
`pre` is the literal directory part of the pattern. -/
def patSearch (pre : String) (url : String) : Option String :=
  segSearch pre.data url.data

/-- Python's first-match-wins loop over a pattern list (with `break`). -/
def firstPatMatch : List String → String → Option String
  | [], _ => none
  | p :: rest, url =>
    match patSearch p url with
    | some g => some g
    | none => firstPatMatch rest url

/-- Capture of `(.*?)['\"]` after an opening quote in
`re.search(r"plugin ['\"](.*?)['\"]", comment.lower())`: the lazily minimal
run of characters up to the first quote (of either kind), which must not
contain a newline because `.` does not match `\n`. -/
def capToQuote (s : List Char) : Option String :=
  let run := s.takeWhile (fun c => c ≠ '\'' ∧ c ≠ '"')
  if (s.drop run.length).head?.isSome ∧ ¬ run.contains '\n' then some ⟨run⟩ else none

/-- Attempt of `plugin ['\"](.*?)['\"]` at one fixed position. -/
def pluginQuoteHere (s : List Char) : Option String :=
  if ("plugin ".data).isPrefixOf s then
    match s.drop 7 with
    | q :: tail => if q = '\'' ∨ q = '"' then capToQuote tail else none
    | [] => none
  else none

/-- `re.search(r"plugin ['\"](.*?)['\"]", ·)`: leftmost position that matches. -/
def pluginQuoteSearch : List Char → Option String
  | [] => none
  | c :: rest =>
    match pluginQuoteHere (c :: rest) with
    | some g => some g
    | none => pluginQuoteSearch rest

/-- Positions (0-based) at which the two-character sequence `\1` occurs. -/
def bs1Positions : List Char → Nat → List Nat
  | c1 :: c2 :: rest, i =>
    (if c1 = '\\' ∧ c2 = '1' then [i] else []) ++ bs1Positions (c2 :: rest) (i + 1)
  | _, _ => []

/-- Group 2 extraction of `re.search(r"action=(['\"])([^'\"]+)\\1", text)` at
one candidate run.  In the source the pattern is a raw string, so `\\1` is a
literal backslash followed by the digit `1`, not a backreference: after
`action=` and a quote, the greedy run `m` of non-quote characters must
contain `\1` with at least one character before it; greedy backtracking picks
the largest such split, so the group runs up to the last `\1` inside `m`. -/
def ajaxGroupOfRun (m : List Char) : Option String :=
  match ((bs1Positions m 0).filter (fun k => 1 ≤ k)).getLast? with
  | some k => some ⟨m.take k⟩
  | none => none

/-- Attempt of the AJAX-action pattern at one fixed position. -/
def ajaxHere (s : List Char) : Option String :=
  if ("action=".data).isPrefixOf s then
    match s.drop 7 with
    | q :: tail =>
      if q = '\'' ∨ q = '"' then
        ajaxGroupOfRun (tail.takeWhile (fun c => c ≠ '\'' ∧ c ≠ '"'))
      else none
    | [] => none
  else none

/-- `re.search(r"action=(['\"])([^'\"]+)\\1", ·)`, leftmost match. -/
def ajaxSearch : List Char → Option String
  | [] => none
  | c :: rest =>
    match ajaxHere (c :: rest) with
    | some g => some g
    | none => ajaxSearch rest

/-- Character class `[^/\"']` of the REST-endpoint pattern. -/
def isRestChar (c : Char) : Bool :=
  c ≠ '/' ∧ c ≠ '"' ∧ c ≠ '\''

/-- Attempt of `/wp-json/([^/\"']+)/([^/\"']+)` at one fixed position,
returning the two captured groups. -/
def restHere (s : List Char) : Option (String × String) :=
  if ("/wp-json/".data).isPrefixOf s then
    let rest := s.drop 9
    let g1 := rest.takeWhile isRestChar
    if g1 ≠ [] ∧ (rest.drop g1.length).head? = some '/' then
      let rest2 := rest.drop (g1.length + 1)
      let g2 := rest2.takeWhile isRestChar
      if g2 ≠ [] then some (⟨g1⟩, ⟨g2⟩) else none
    else none
  else none

/-- `re.search(r"/wp-json/([^/\"']+)/([^/\"']+)", ·)`, leftmost match. -/
def restSearch : List Char → Option (String × String)
  | [] => none
  | c :: rest =>
    match restHere (c :: rest) with
    | some g => some g
    | none => restSearch rest

/-- Attempt of `\[([a-zA-Z0-9_-]+)(?:\s+[^\]]+)?\]` at one fixed position.
Returns the captured name and the remainder after the whole match.  With
backtracking resolved: after the name either `]` follows directly, or the
remainder starts with a whitespace character and the maximal run of
non-`]` characters has length at least 2 and is followed by `]`. -/
def shortcodeHere (s : List Char) : Option (String × List Char) :=
  match s with
  | '[' :: r =>
    let name := r.takeWhile (fun c => isShortcodeChar c)
    if name = [] then none else
    let r2 := r.drop name.length
    match r2.head? with
    | some ']' => some (⟨name⟩, r2.drop 1)
    | some c0 =>
      if c0.isWhitespace then
        let body := r2.takeWhile (fun c => c ≠ ']')
        if 2 ≤ body.length ∧ (r2.drop body.length).head? = some ']' then
          some (⟨name⟩, r2.drop (body.length + 1))
        else none
      else none
    | none => none
  | _ => none

/-- Worker for `re.findall` of the shortcode pattern; `fuel` bounds the scan
(one unit per character position suffices, as every step consumes at least
one character). -/
def findShortcodesGo : Nat → List Char → List String
  | 0, _ => []
  | _ + 1, [] => []
  | fuel + 1, c :: rest =>
    match shortcodeHere (c :: rest) with
    | some (g, after) => g :: findShortcodesGo fuel after
    | none => findShortcodesGo fuel rest

/-- `re.findall(r"\[([a-zA-Z0-9_-]+)(?:\s+[^\]]+)?\]", text)`: all
non-overlapping matches, left to right, group 1 of each. -/
def findShortcodes (s : List Char) : List String :=
  findShortcodesGo s.length s

/-- Attempt of `/([a-z0-9-_]+)/[a-z0-9-_]+/?$` at one fixed position: slash,
nonempty slug run (the group), slash, nonempty slug run, optional final
slash, end of string. -/
def postTypeHere (s : List Char) : Option String :=
  match s with
  | '/' :: rest =>
    let r1 := rest.takeWhile (fun c => isSlugChar c)
    if r1 = [] then none else
    match rest.drop r1.length with
    | '/' :: rest2 =>
      let r2 := rest2.takeWhile (fun c => isSlugChar c)
      let rem := rest2.drop r2.length
      if r2 ≠ [] ∧ (rem = [] ∨ rem = ['/']) then some ⟨r1⟩ else none
    | _ => none
  | _ => none

/-- `re.search(r"/([a-z0-9-_]+)/[a-z0-9-_]+/?$", href)`, leftmost match. -/
def postTypeSearch : List Char → Option String
  | [] => none
  | c :: rest =>
    match postTypeHere (c :: rest) with
    | some g => some g
    | none => postTypeSearch rest

/-- A parsed `<script>` tag.  `srcAttr`/`idAttr`/`typeAttr` are the attribute
values (`none` when absent); `strAttr` models BeautifulSoup's
`script.string` (`none` when unavailable) and `text` models `script.text`. -/
structure ScriptTag where
  srcAttr : Option String
  idAttr : Option String
  typeAttr : Option String
  strAttr : Option String
  text : String
deriving DecidableEq, Repr

/-- A parsed `<link>` tag carrying an `href` (the source only iterates
`find_all("link", href=True)`). -/
structure LinkTag where
  href : String
  idAttr : Option String
deriving DecidableEq, Repr

/-- A parsed `<meta>` tag. -/
structure MetaTag where
  nameAttr : Option String
  content : Option String
deriving DecidableEq, Repr

/-- The views of one parsed page (a BeautifulSoup document) that the
analyzer inspects.  Each field corresponds to one `find_all` query of the
source, in document order; tag-attribute values are pre-rendered strings
exactly as Python's f-strings would render them. -/
structure Page where
  /-- `find_all("script")`, document order (those with a `src` attribute form
  `find_all("script", src=True)`). -/
  scripts : List ScriptTag
  /-- `find_all("link", href=True)`. -/
  linkTags : List LinkTag
  /-- Class lists of `find_all(class_=True)`, document order. -/
  classedTags : List (List String)
  /-- The document's text strings (candidates of the
  `find_all(string=...)` comment query). -/
  strings : List String
  /-- Class lists of `find_all("div")` (empty list when no class attribute). -/
  divClasses : List (List String)
  /-- `href` values of `find_all("a", href=True)`. -/
  anchors : List String
  /-- `find_all("meta")`. -/
  metas : List MetaTag
  /-- Attribute lists of `find_all()` (every tag), for the data-attribute
  scan; values pre-rendered as Python would interpolate them. -/
  allTags : List (List (String × String))
deriving DecidableEq, Repr

/-- Outcome of one `session.get` for a given URL: a parsed page on HTTP 200,
`badStatus` for a non-2xx response, `netError` when the request raises. -/
inductive FetchOutcome where
  | success (pg : Page)
  | badStatus
  | netError
deriving DecidableEq

/-- The mutable analyzer state (`WooCommerceAnalyzer.__init__`).  Python
`set` fields are duplicate-free lists in insertion order;
`custom_code_indicators` is a genuine Python `list` and keeps duplicates. -/
structure AState where
  visited_urls : List String
  plugins_detected : List (String × String)
  themes_detected : List (String × String)
  main_theme : Option String
  child_theme : Option String
  custom_post_types : List String
  shortcodes : List String
  rest_endpoints : List String
  custom_data_attributes : List String
  ajax_calls : List String
  gutenberg_blocks : List String
  custom_code_indicators : List String
  css_classes : List String
deriving DecidableEq, Repr

/-- Fresh analyzer state at construction. -/
def initState : AState :=
  { visited_urls := [], plugins_detected := [], themes_detected := []
    main_theme := none, child_theme := none, custom_post_types := []
    shortcodes := [], rest_endpoints := [], custom_data_attributes := []
    ajax_calls := [], gutenberg_blocks := [], custom_code_indicators := []
    css_classes := [] }

/-- `self.plugin_path_patterns`, as the literal directory prefixes of the
regexes (each regex is prefix + `([^/]+)/`). -/
def pluginPathPatterns : List String :=
  ["/wp-content/plugins/", "/app/plugins/", "/plugins/", "/wp/plugins/"]

/-- `self.theme_path_patterns`. -/
def themePathPatterns : List String :=
  ["/wp-content/themes/", "/app/themes/", "/themes/", "/wp/themes/"]

/-- `self.known_plugins` (keys and descriptions). -/
def knownPlugins : List (String × String) :=
  [("woocommerce", "WooCommerce - Core eCommerce functionality"),
   ("jetpack", "Jetpack - Security, performance, and marketing tools"),
   ("gravityforms", "Gravity Forms - Advanced forms and submissions"),
   ("elementor", "Elementor - Page builder"),
   ("js_composer", "WPBakery Page Builder (formerly Visual Composer)"),
   ("wp-super-cache", "WP Super Cache - Caching plugin"),
   ("w3-total-cache", "W3 Total Cache - Performance optimization"),
   ("akismet", "Akismet - Spam protection"),
   ("contact-form-7", "Contact Form 7 - Form handling"),
   ("wordpress-seo", "Yoast SEO - Search engine optimization"),
   ("revslider", "Revolution Slider - Slider plugin"),
   ("wc-product-bundles", "WooCommerce Product Bundles - Create bundles and composite products"),
   ("woocommerce-gateway-stripe", "WooCommerce Stripe Gateway - Payment processing"),
   ("woocommerce-gateway-paypal-express-checkout", "WooCommerce PayPal Checkout Gateway"),
   ("wc-ajax-product-filter", "AJAX Product Filters for WooCommerce"),
   ("wc-quantity-plus-minus-buttons", "Quantity Plus Minus Buttons for WooCommerce"),
   ("woocommerce-composite-products", "WooCommerce Composite Products"),
   ("woocommerce-bookings", "WooCommerce Bookings - Booking system"),
   ("woocommerce-subscriptions", "WooCommerce Subscriptions - Subscription functionality"),
   ("woocommerce-product-addons", "WooCommerce Product Add-ons"),
   ("woocommerce-photography", "WooCommerce Photography - Photo selling features"),
   ("woocommerce-memberships", "WooCommerce Memberships - Membership functionality"),
   ("klaviyo", "Klaviyo - Email marketing integration"),
   ("mailchimp-for-woocommerce", "Mailchimp for WooCommerce - Email marketing"),
   ("woocommerce-shipstation-integration", "WooCommerce ShipStation Integration"),
   ("woocommerce-square", "WooCommerce Square - Payment and POS integration"),
   ("ups-woocommerce-shipping", "UPS WooCommerce Shipping - Shipping integration"),
   ("woocommerce-gateway-authorize-net-cim", "Authorize.net Payment Gateway"),
   ("woocommerce-advanced-shipping", "WooCommerce Advanced Shipping - Complex shipping rules")]

/-- Key membership in `self.known_plugins`. -/
def knownPluginKey (k : String) : Bool :=
  knownPlugins.any (fun p => p.1 = k)

/-- Dictionary lookup in `self.known_plugins`. -/
def knownPluginDesc (k : String) : Option String :=
  (knownPlugins.find? (fun p => p.1 = k)).map (fun p => p.2)

/-- `self.plugins_detected.add(e)`. -/
def addPlugin (st : AState) (e : String × String) : AState :=
  { st with plugins_detected := sinsert e st.plugins_detected }

/-- `WooCommerceAnalyzer._check_asset_for_plugin`: first-match-wins plugin
pattern loop (with the custom-plugin indicator append), then first-match-wins
theme pattern loop with child-theme parent inference. -/
def checkAssetForPlugin (st : AState) (assetUrl : String) : AState :=
  let st1 :=
    match firstPatMatch pluginPathPatterns assetUrl with
    | some pluginName =>
      let stP := { st with plugins_detected := sinsert (pluginName, assetUrl) st.plugins_detected }
      if strContains (strLower pluginName) "pop" || strContains (strLower pluginName) "sign" then
        { stP with custom_code_indicators := stP.custom_code_indicators ++ ["Custom Plugin: " ++ pluginName] }
      else stP
    | none => st
  match firstPatMatch themePathPatterns assetUrl with
  | some themeName =>
    let st2 := { st1 with themes_detected := sinsert (themeName, assetUrl) st1.themes_detected }
    if strContains themeName "-child" then
      let parentTheme := strReplace themeName "-child" ""
      if st2.themes_detected.any (fun p => p.1 == parentTheme) then st2
      else
        { st2 with themes_detected :=
            sinsert (parentTheme, "Parent theme detected via child theme reference") st2.themes_detected }
    else st2
  | none => st1

/-- One iteration of the `all_scripts` loop of `detect_plugins_from_html`:
asset check on `src`, then the `-js` script-id heuristic. -/
def procScript (st : AState) (sc : ScriptTag) : AState :=
  let st1 := checkAssetForPlugin st (sc.srcAttr.getD "")
  match sc.idAttr with
  | some scriptId =>
    if scriptId ≠ "" ∧ strContains scriptId "-js" then
      let potential := strReplace scriptId "-js" ""
      if knownPluginKey potential then addPlugin st1 (potential, "Script ID: " ++ scriptId)
      else st1
    else st1
  | none => st1

/-- One iteration of the `all_links` loop: asset check on `href`, then the
`-css` link-id heuristic. -/
def procLink (st : AState) (lk : LinkTag) : AState :=
  let st1 := checkAssetForPlugin st lk.href
  match lk.idAttr with
  | some linkId =>
    if linkId ≠ "" ∧ strContains linkId "-css" then
      let potential := strReplace linkId "-css" ""
      if knownPluginKey potential then addPlugin st1 (potential, "Link ID: " ++ linkId)
      else st1
    else st1
  | none => st1

/-- The fixed prefix-to-label table shared by the CSS-class pattern loop and
`_add_potential_plugin_from_pattern` (each `re.match(r"^...", cls)` is a
prefix test; the dictionary covers all six patterns). -/
def cssPluginPrefixes : List (String × String) :=
  [("wc-", "WooCommerce"), ("yith-", "YITH Plugin"), ("elementor-", "Elementor"),
   ("wp-block-", "Gutenberg"), ("et_", "Divi"), ("fl-", "Beaver Builder")]

/-- One CSS class of one classed tag: record it, then run the (break-free)
pattern loop through `_add_potential_plugin_from_pattern`. -/
def procCssClass (st : AState) (cls : String) : AState :=
  let st1 := { st with css_classes := sinsert cls st.css_classes }
  cssPluginPrefixes.foldl
    (fun s pr => if strStarts cls pr.1 then addPlugin s (pr.2, "CSS Class: " ++ cls) else s) st1

/-- One classed tag: iterate its class list. -/
def procClassList (st : AState) (classes : List String) : AState :=
  classes.foldl procCssClass st

/-- One comment string (already filtered by `strip().startswith("<!--")`):
indicator append and the quoted-plugin-name extraction, both guarded by
`"plugin" in comment.lower()`. -/
def procComment (st : AState) (comment : String) : AState :=
  if strContains (strLower comment) "plugin" then
    let st1 := { st with custom_code_indicators :=
        st.custom_code_indicators ++ ["HTML Comment: " ++ (strTrim comment).take 100] }
    match pluginQuoteSearch (strLower comment).data with
    | some g => addPlugin st1 (g, "Comment: " ++ comment.take 50 ++ "...")
    | none => st1
  else st

/-- One `<div>`'s class list for the Gutenberg scan: kept when some class
contains `wp-block-` as a substring; the recorded block is the first class
that starts with `wp-block-`, when one exists. -/
def procGutenberg (st : AState) (classes : List String) : AState :=
  if classes.any (fun cls => strContains cls "wp-block-") then
    match (classes.filter (fun cls => strStarts cls "wp-block-")).head? with
    | some b => { st with gutenberg_blocks := sinsert b st.gutenberg_blocks }
    | none => st
  else st

/-- One anchor `href` for the custom-post-type scan. -/
def procPostType (st : AState) (href : String) : AState :=
  match postTypeSearch href.data with
  | some g =>
    if g ∈ (["category", "tag", "product", "post", "page"] : List String) then st
    else { st with custom_post_types := sinsert g st.custom_post_types }
  | none => st

/-- One `<meta>` tag: generator tags whose content mentions a plugin. -/
def procMeta (st : AState) (m : MetaTag) : AState :=
  match m.nameAttr with
  | some n =>
    if n ≠ "" ∧ strContains n "generator" then
      let content := m.content.getD ""
      if strContains (strLower content) "plugin" then addPlugin st (content, "Meta Generator Tag")
      else st
    else st
  | none => st

/-- `WooCommerceAnalyzer.detect_plugins_from_html` (the `url` parameter of the
source is unused in its body and therefore omitted). -/
def detectPluginsFromHtml (st : AState) (pg : Page) : AState :=
  let st1 := (pg.scripts.filter (fun sc => sc.srcAttr.isSome)).foldl procScript st
  let st2 := pg.linkTags.foldl procLink st1
  let st3 := pg.classedTags.foldl procClassList st2
  let st4 := (pg.strings.filter (fun t => strStarts (strTrim t) "<!--")).foldl procComment st3
  let st5 := pg.divClasses.foldl procGutenberg st4
  let st6 := pg.anchors.foldl procPostType st5
  let st7 := pg.metas.foldl procMeta st6
  let st8 :=
    if pg.divClasses.any (fun cl => cl.contains "widget_shopping_cart_content") then
      addPlugin st7 ("woocommerce", "Shopping Cart Widget")
    else st7
  if pg.divClasses.any (fun cl => cl.contains "woocommerce-product-gallery") then
    addPlugin st8 ("woocommerce", "Product Gallery")
  else st8

/-- One tag of the data-attribute scan of `detect_custom_functionality`. -/
def procDataTag (st : AState) (attrs : List (String × String)) : AState :=
  attrs.foldl
    (fun s a =>
      if strStarts a.1 "data-"
          ∧ ¬ (strContains a.1 "elementor" ∨ strContains a.1 "woocommerce"
                ∨ strContains a.1 "product") then
        { s with custom_data_attributes := sinsert (a.1 ++ "=" ++ a.2) s.custom_data_attributes }
      else s) st

/-- One script of the AJAX / REST / shortcode scan (guarded by a truthy
`script.string`; the scanned text is `script.text`). -/
def procAjaxScript (st : AState) (sc : ScriptTag) : AState :=
  let scriptText := sc.text
  match sc.strAttr with
  | some s0 =>
    if s0 ≠ "" then
      let st1 :=
        if strContains scriptText "admin-ajax.php" then
          match ajaxSearch scriptText.data with
          | some action => { st with ajax_calls := sinsert ("AJAX action: " ++ action) st.ajax_calls }
          | none =>
            let entry := if scriptText.length > 100 then (strTrim scriptText).take 100 ++ "..." else scriptText
            { st with ajax_calls := sinsert entry st.ajax_calls }
        else st
      let st2 :=
        if strContains scriptText "/wp-json/" then
          match restSearch scriptText.data with
          | some g => { st1 with rest_endpoints := sinsert (g.1 ++ "/" ++ g.2) st1.rest_endpoints }
          | none => st1
        else st1
      (findShortcodes scriptText.data).foldl
        (fun s name => { s with shortcodes := sinsert name s.shortcodes }) st2
    else st
  | none => st

/-- One `application/json` script: `json.loads` (modelled by the `jsonLoads`
parameter, which returns Python's `str(json_data)` or `none` when the parse
raises) feeding an indicator append; exceptions are swallowed. -/
def procJsonScript (jsonLoads : String → Option String) (st : AState) (sc : ScriptTag) : AState :=
  match sc.strAttr with
  | some s0 =>
    if s0 ≠ "" then
      match jsonLoads s0 with
      | some rendered =>
        { st with custom_code_indicators :=
            st.custom_code_indicators ++ ["JSON data block: " ++ rendered.take 100 ++ "..."] }
      | none => st
    else st
  | none => st

/-- One script of the inline custom-JS heuristic. -/
def procCustomJs (st : AState) (sc : ScriptTag) : AState :=
  match sc.strAttr with
  | some s0 =>
    if sc.srcAttr = none ∧ s0 ≠ "" ∧ (strTrim s0).length > 0 then
      let scriptText := strTrim s0
      if scriptText.length > 100 ∧ ¬ strContains (scriptText.take 100) "jQuery"
          ∧ ¬ strContains (scriptText.take 100) "function(" then
        { st with custom_code_indicators :=
            st.custom_code_indicators ++ ["Custom JS: " ++ scriptText.take 100 ++ "..."] }
      else st
    else st
  | none => st

/-- `WooCommerceAnalyzer.detect_custom_functionality`. -/
def detectCustomFunctionality (jsonLoads : String → Option String) (st : AState) (pg : Page) :
    AState :=
  let st1 := pg.allTags.foldl procDataTag st
  let st2 := pg.scripts.foldl procAjaxScript st1
  let st3 := (pg.scripts.filter (fun sc => sc.typeAttr == some "application/json")).foldl
    (procJsonScript jsonLoads) st2
  pg.scripts.foldl procCustomJs st3

/-- Abstraction of `urllib.parse` as used by the script: `netlocOf` is
`urlparse(u).netloc`, `urljoin cur href` is `urljoin(cur, href)`. -/
structure UrlModel where
  netlocOf : String → String
  urljoin : String → String → String

/-- `WooCommerceAnalyzer.fetch_page`.  Returns the parsed page (or `none`),
the updated visited set, and a ghost Boolean observer recording whether
`session.get` was actually called (false only on the already-visited early
return).  The visited-set add sits after `session.get` inside the `try`, so a
raised network error (`netError`) skips it. -/
def fetchPage (env : String → FetchOutcome) (visited : List String) (url : String) :
    Option Page × List String × Bool :=
  if url ∈ visited then (none, visited, false)
  else
    match env url with
    | .success pg => (some pg, sinsert url visited, true)
    | .badStatus => (none, sinsert url visited, true)
    | .netError => (none, visited, true)

/-- The filter body of the `extract_links` loop: resolve against the current
URL, skip cross-domain links, in-page anchors, non-HTTP(S) schemes, and
already-visited URLs. -/
def linkKeep (um : UrlModel) (domain : String) (visited : List String) (cur href : String) :
    Option String :=
  let fullUrl := um.urljoin cur href
  if um.netlocOf fullUrl ≠ domain ∨ strStarts href "#"
      ∨ ¬ (strStarts fullUrl "http://" ∨ strStarts fullUrl "https://") then none
  else if fullUrl ∈ visited then none
  else some fullUrl

/-- `WooCommerceAnalyzer.extract_links` over a page's anchor `href`s, in
document order (`domain` is `urlparse(self.base_url).netloc`). -/
def extractLinks (um : UrlModel) (domain : String) (visited : List String) (cur : String)
    (anchors : List String) : List String :=
  anchors.filterMap (linkKeep um domain visited cur)

/-- Ghost per-iteration trace record of the crawl loop, for stating
properties of intermediate configurations. -/
structure CrawlStep where
  url : String
  attempted : Bool
  succeeded : Bool
  pagesVisitedAfter : Nat
  enqueued : Nat
  frontierAfter : List String
deriving DecidableEq, Repr

/-- Termination measure of the crawl loop: each iteration either increments
`pages_visited` (adding at most `maxPages` frontier entries) or consumes one
frontier entry, so this quantity strictly decreases. -/
def crawlFuel (maxPages pv : Nat) (frontier : List String) : Nat :=
  (maxPages - pv) * (maxPages + 1) + frontier.length + 1

/-- Body of the `while urls_to_visit and pages_visited < self.max_pages` loop
of `WooCommerceAnalyzer.analyze_site`: FIFO dequeue, fetch, skip on failure,
otherwise run both detectors and extend the frontier with the extracted links
sliced to `max_pages - pages_visited`.  Besides the final state and
`pages_visited`, it returns the ghost iteration trace.  The structural `fuel`
argument only bounds the recursion; `crawlLoopGo_fuel_irrel` and the
`crawlLoop_*` equations below prove that from `crawlFuel` onwards the result
does not depend on it, i.e. the loop genuinely terminates with these
equations as its recurrence. -/
def crawlLoopGo (env : String → FetchOutcome) (jsonLoads : String → Option String)
    (um : UrlModel) (domain : String) (maxPages : Nat) :
    Nat → List String → Nat → AState → AState × Nat × List CrawlStep
  | _, [], pv, st => (st, pv, [])
  | 0, _ :: _, pv, st => (st, pv, [])
  | fuel + 1, url :: rest, pv, st =>
    if pv < maxPages then
      let fr := fetchPage env st.visited_urls url
      let st1 := { st with visited_urls := fr.2.1 }
      match fr.1 with
      | none =>
        let r := crawlLoopGo env jsonLoads um domain maxPages fuel rest pv st1
        (r.1, r.2.1, ⟨url, fr.2.2, false, pv, 0, rest⟩ :: r.2.2)
      | some pg =>
        let pv1 := pv + 1
        let st2 := detectCustomFunctionality jsonLoads (detectPluginsFromHtml st1 pg) pg
        let newLinks :=
          if pv1 < maxPages then
            (extractLinks um domain st2.visited_urls url pg.anchors).take (maxPages - pv1)
          else []
        let frontier1 := rest ++ newLinks
        let r := crawlLoopGo env jsonLoads um domain maxPages fuel frontier1 pv1 st2
        (r.1, r.2.1, ⟨url, fr.2.2, true, pv1, newLinks.length, frontier1⟩ :: r.2.2)
    else (st, pv, [])

/-- The crawl loop, entered with enough fuel for its measure. -/
def crawlLoop (env : String → FetchOutcome) (jsonLoads : String → Option String)
    (um : UrlModel) (domain : String) (maxPages : Nat)
    (frontier : List String) (pv : Nat) (st : AState) : AState × Nat × List CrawlStep :=
  crawlLoopGo env jsonLoads um domain maxPages (crawlFuel maxPages pv frontier) frontier pv st

/-- The main/child-theme derivation pass at the end of `analyze_site`
(runs over the finished `themes_detected`; Python indexes `theme_names[0]`
and `theme_names[1]` under guards that make them valid, modelled with
optional indexing). -/
def deriveThemes (st : AState) : AState :=
  let themeNames := st.themes_detected.map Prod.fst
  if themeNames.length = 1 then
    { st with main_theme := themeNames[0]? }
  else if themeNames.length > 1 then
    let childThemes := themeNames.filter (fun n => strContains n "-child")
    match childThemes.head? with
    | some c =>
      let parentTheme := strReplace c "-child" ""
      let stc := { st with child_theme := some c }
      if parentTheme ∈ themeNames then { stc with main_theme := some parentTheme }
      else
        let nonChildThemes := themeNames.filter (fun n => ¬ strContains n "-child")
        match nonChildThemes.head? with
        | some nc => { stc with main_theme := some nc }
        | none => { stc with main_theme := themeNames[0]? }
    | none =>
      let st1 := { st with main_theme := themeNames[0]? }
      if themeNames.length > 1 then { st1 with child_theme := themeNames[1]? } else st1
  else st

/-- The `https://` prefixing at the top of `analyze_site`. -/
def normalizeBase (base : String) : String :=
  if strStarts base "http://" ∨ strStarts base "https://" then base
  else "https://" ++ base

/-- `WooCommerceAnalyzer.analyze_site`: normalize the base URL, crawl from
the homepage with a fresh analyzer state, then derive main/child themes. -/
def analyzeSite (env : String → FetchOutcome) (jsonLoads : String → Option String)
    (um : UrlModel) (base : String) (maxPages : Nat) : AState × Nat × List CrawlStep :=
  let base1 := normalizeBase base
  let domain := um.netlocOf base1
  let r := crawlLoop env jsonLoads um domain maxPages [base1] 0 initState
  (deriveThemes r.1, r.2.1, r.2.2)

/-- `report += f"\n- {x}"`-style accumulation over a list of items. -/
def reportLines (pre : String) (items : List String) : String :=
  items.foldl (fun acc it => acc ++ pre ++ it) ""

/-- Keys of the `defaultdict(list)` built from `plugins_detected`, in first
occurrence order. -/
def pluginKeys (l : List (String × String)) : List String :=
  l.foldl (fun ks p => sinsert p.1 ks) []

/-- `plugin_dict[plugin]`: the evidence sources grouped under one key. -/
def sourcesFor (l : List (String × String)) (k : String) : List String :=
  (l.filter (fun p => p.1 == k)).map Prod.snd

/-- One plugin line of the report, with the known-plugin description
appended when the lowercased key is in the catalog. -/
def pluginLine (plugin : String) : String :=
  match knownPluginDesc (strLower plugin) with
  | some desc => "\n- " ++ plugin ++ " - " ++ desc
  | none => "\n- " ++ plugin

/-- The plugins section: alphabetical keys with `woocommerce` pinned first,
and, in verbose mode, at most three evidence sources per plugin. -/
def pluginsSection (st : AState) (verbose : Bool) : String :=
  if st.plugins_detected ≠ [] then
    let sortedKeys := sortStrings (pluginKeys st.plugins_detected)
    let finalKeys :=
      if "woocommerce" ∈ sortedKeys then "woocommerce" :: sortedKeys.erase "woocommerce"
      else sortedKeys
    "\n\n✅ **Detected Plugins:**" ++
      finalKeys.foldl
        (fun acc plugin =>
          acc ++ pluginLine plugin ++
            (if verbose then
              reportLines "\n  - Found in: " ((sourcesFor st.plugins_detected plugin).take 3)
            else "")) ""
  else "\n\n❌ No plugins were detected from front-end assets."

/-- The theme section (`if self.main_theme:` and `if self.child_theme:` are
Python truthiness tests, so an empty-string theme name prints nothing). -/
def themeSection (st : AState) (verbose : Bool) : String :=
  if st.themes_detected ≠ [] then
    "\n\n🎨 **Detected Theme:**" ++
      (match st.main_theme with
       | some m => if m ≠ "" then "\n- Main Theme: " ++ m else ""
       | none => "") ++
      (match st.child_theme with
       | some c => if c ≠ "" then "\n- Child Theme: " ++ c else ""
       | none => "") ++
      (if verbose then "\n\nTheme Assets:" ++ reportLines "\n- " (st.themes_detected.map Prod.snd)
       else "")
  else "\n\n❌ No WordPress theme detected."

/-- The custom-plugins section, filtered from the indicator list. -/
def customPluginsSection (st : AState) : String :=
  let customPlugins := st.custom_code_indicators.filter (fun it => strContains it "Custom Plugin:")
  if customPlugins ≠ [] then
    "\n\n🛠️ **Custom Plugins Detected:**" ++
      customPlugins.foldl (fun acc p => acc ++ "\n- " ++ strReplace p "Custom Plugin: " "") ""
  else ""

/-- The Gutenberg blocks section. -/
def gutenbergSection (st : AState) : String :=
  if st.gutenberg_blocks ≠ [] then
    "\n\n📦 **Detected Gutenberg Blocks:**" ++ reportLines "\n- " st.gutenberg_blocks
  else ""

/-- The custom post types section. -/
def cptSection (st : AState) : String :=
  if st.custom_post_types ≠ [] then
    "\n\n📋 **Detected Custom Post Types:**" ++ reportLines "\n- " st.custom_post_types
  else ""

/-- The REST endpoints section. -/
def restSection (st : AState) : String :=
  if st.rest_endpoints ≠ [] then
    "\n\n🔌 **Detected REST API Endpoints:**" ++ reportLines "\n- wp-json/" st.rest_endpoints
  else ""

/-- The shortcodes section. -/
def shortcodeSection (st : AState) : String :=
  if st.shortcodes ≠ [] then
    "\n\n🧩 **Detected Shortcodes:**" ++
      st.shortcodes.foldl (fun acc sc => acc ++ "\n- [" ++ sc ++ "]") ""
  else ""

/-- Custom data attributes, capped at 10 with an overflow counter. -/
def dataAttrsPart (st : AState) : String :=
  if st.custom_data_attributes ≠ [] then
    "\n\nCustom Data Attributes:" ++ reportLines "\n- " (st.custom_data_attributes.take 10) ++
      (if st.custom_data_attributes.length > 10 then
        "\n- ... and " ++ toString (st.custom_data_attributes.length - 10) ++ " more"
      else "")
  else ""

/-- AJAX calls, uncapped. -/
def ajaxPart (st : AState) : String :=
  if st.ajax_calls ≠ [] then
    "\n\nAJAX Calls (Potential Custom Features):" ++ reportLines "\n- " st.ajax_calls
  else ""

/-- Non-plugin custom-code indicators, capped at 5 with an overflow counter. -/
def otherIndicatorsPart (st : AState) : String :=
  let others := st.custom_code_indicators.filter (fun it => ¬ strContains it "Custom Plugin:")
  if others ≠ [] then
    "\n\nOther Custom Code Indicators:" ++ reportLines "\n- " (others.take 5) ++
      (if others.length > 5 then
        "\n- ... and " ++ toString (others.length - 5) ++ " more"
      else "")
  else ""

/-- The custom-functionality block (always emits its header). -/
def customFuncSection (st : AState) : String :=
  "\n\n⚡ **Potential Custom Functionality:**" ++ dataAttrsPart st ++ ajaxPart st ++
    otherIndicatorsPart st

/-- Verbose-only CSS classes section, capped at 20 with an overflow counter. -/
def cssSection (st : AState) (verbose : Bool) : String :=
  if verbose ∧ st.css_classes ≠ [] then
    let pluginSpecific := st.css_classes.filter
      (fun cls => (["wc-", "yith-", "elementor-", "wp-block-"] : List String).any
        (fun pre => strStarts cls pre))
    "\n\n🔍 **Interesting CSS Classes:**" ++ reportLines "\n- " (pluginSpecific.take 20) ++
      (if pluginSpecific.length > 20 then
        "\n- ... and " ++ toString (pluginSpecific.length - 20) ++ " more"
      else "")
  else ""

/-- The report header (target and page count). -/
def reportHeader (base : String) (st : AState) : String :=
  "\n🔍 **WooCommerce Website Analysis Report** 🔍\n" ++
    "\nTarget Website: " ++ base ++
    "\nPages Analyzed: " ++ toString st.visited_urls.length

/-- `WooCommerceAnalyzer.generate_report` (the optional file write is I/O
and outside the model; the function's return value is the report text). -/
def generateReport (base : String) (st : AState) (verbose : Bool) : String :=
  reportHeader base st ++ pluginsSection st verbose ++ themeSection st verbose ++
    customPluginsSection st ++ gutenbergSection st ++ cptSection st ++ restSection st ++
    shortcodeSection st ++ customFuncSection st ++ cssSection st verbose ++
    "\n\n🚀 **Analysis Complete!** 🚀"

/-! ### Per-field update functions

The detectors above thread the whole state exactly as the Python methods
do.  For reasoning, each touched field's update is also expressed as a
function of that field alone; characterization lemmas below prove the two
presentations equal. -/

/-- Concatenation of the images of a list under a list-valued function. -/
def joinMap {α γ : Type} (f : α → List γ) : List α → List γ
  | [] => []
  | x :: xs => f x ++ joinMap f xs

/-- Plugin-pattern half of `_check_asset_for_plugin`, on `plugins_detected`. -/
def pluginUpd (url : String) (pl : List (String × String)) : List (String × String) :=
  match firstPatMatch pluginPathPatterns url with
  | some pluginName => sinsert (pluginName, url) pl
  | none => pl

/-- Indicator entries appended by the plugin half of `_check_asset_for_plugin`. -/
def assetInd (url : String) : List String :=
  match firstPatMatch pluginPathPatterns url with
  | some pluginName =>
    if strContains (strLower pluginName) "pop" || strContains (strLower pluginName) "sign" then
      ["Custom Plugin: " ++ pluginName]
    else []
  | none => []

/-- Theme-pattern half of `_check_asset_for_plugin`, on `themes_detected`. -/
def themeUpd (url : String) (th : List (String × String)) : List (String × String) :=
  match firstPatMatch themePathPatterns url with
  | some themeName =>
    let t2 := sinsert (themeName, url) th
    if strContains themeName "-child" then
      let parentTheme := strReplace themeName "-child" ""
      if t2.any (fun p => p.1 == parentTheme) then t2
      else sinsert (parentTheme, "Parent theme detected via child theme reference") t2
    else t2
  | none => th

/-- `plugins_detected` effect of one script iteration. -/
def scriptPlugins (sc : ScriptTag) (pl : List (String × String)) : List (String × String) :=
  let pl1 := pluginUpd (sc.srcAttr.getD "") pl
  match sc.idAttr with
  | some scriptId =>
    if scriptId ≠ "" ∧ strContains scriptId "-js" then
      let potential := strReplace scriptId "-js" ""
      if knownPluginKey potential then sinsert (potential, "Script ID: " ++ scriptId) pl1 else pl1
    else pl1
  | none => pl1

/-- `plugins_detected` effect of one link iteration. -/
def linkPlugins (lk : LinkTag) (pl : List (String × String)) : List (String × String) :=
  let pl1 := pluginUpd lk.href pl
  match lk.idAttr with
  | some linkId =>
    if linkId ≠ "" ∧ strContains linkId "-css" then
      let potential := strReplace linkId "-css" ""
      if knownPluginKey potential then sinsert (potential, "Link ID: " ++ linkId) pl1 else pl1
    else pl1
  | none => pl1

/-- `plugins_detected` effect of one CSS class. -/
def cssClassPlugins (cls : String) (pl : List (String × String)) : List (String × String) :=
  cssPluginPrefixes.foldl
    (fun p pr => if strStarts cls pr.1 then sinsert (pr.2, "CSS Class: " ++ cls) p else p) pl

/-- `plugins_detected` effect of one classed tag. -/
def classListPlugins (classes : List String) (pl : List (String × String)) :
    List (String × String) :=
  classes.foldl (fun p cls => cssClassPlugins cls p) pl

/-- `css_classes` effect of one classed tag. -/
def classListCss (classes : List String) (css : List String) : List String :=
  classes.foldl (fun c cls => sinsert cls c) css

/-- `plugins_detected` effect of one comment string. -/
def commentPlugins (comment : String) (pl : List (String × String)) : List (String × String) :=
  if strContains (strLower comment) "plugin" then
    match pluginQuoteSearch (strLower comment).data with
    | some g => sinsert (g, "Comment: " ++ comment.take 50 ++ "...") pl
    | none => pl
  else pl

/-- Indicator entries appended by one comment string. -/
def commentInd (comment : String) : List String :=
  if strContains (strLower comment) "plugin" then
    ["HTML Comment: " ++ (strTrim comment).take 100]
  else []

/-- `gutenberg_blocks` effect of one div's class list. -/
def gutenbergUpd (classes : List String) (gb : List String) : List String :=
  if classes.any (fun cls => strContains cls "wp-block-") then
    match (classes.filter (fun cls => strStarts cls "wp-block-")).head? with
    | some b => sinsert b gb
    | none => gb
  else gb

/-- `custom_post_types` effect of one anchor. -/
def postTypeUpd (href : String) (cpt : List String) : List String :=
  match postTypeSearch href.data with
  | some g =>
    if g ∈ (["category", "tag", "product", "post", "page"] : List String) then cpt
    else sinsert g cpt
  | none => cpt

/-- `plugins_detected` effect of one meta tag. -/
def metaPlugins (m : MetaTag) (pl : List (String × String)) : List (String × String) :=
  match m.nameAttr with
  | some n =>
    if n ≠ "" ∧ strContains n "generator" then
      let content := m.content.getD ""
      if strContains (strLower content) "plugin" then sinsert (content, "Meta Generator Tag") pl
      else pl
    else pl
  | none => pl

/-- The scripts of a page carrying a `src` attribute (the
`find_all("script", src=True)` view). -/
def srcScripts (pg : Page) : List ScriptTag :=
  pg.scripts.filter (fun sc => sc.srcAttr.isSome)

/-- The comment strings the comment query selects. -/
def commentStrings (pg : Page) : List String :=
  pg.strings.filter (fun t => strStarts (strTrim t) "<!--")

/-- Whole-page `plugins_detected` update of `detect_plugins_from_html`. -/
def pPlugins (pg : Page) (pl : List (String × String)) : List (String × String) :=
  let pl1 := (srcScripts pg).foldl (fun p sc => scriptPlugins sc p) pl
  let pl2 := pg.linkTags.foldl (fun p lk => linkPlugins lk p) pl1
  let pl3 := pg.classedTags.foldl (fun p classes => classListPlugins classes p) pl2
  let pl4 := (commentStrings pg).foldl (fun p c => commentPlugins c p) pl3
  let pl5 := pg.metas.foldl (fun p m => metaPlugins m p) pl4
  let pl6 :=
    if pg.divClasses.any (fun cl => cl.contains "widget_shopping_cart_content") then
      sinsert ("woocommerce", "Shopping Cart Widget") pl5
    else pl5
  if pg.divClasses.any (fun cl => cl.contains "woocommerce-product-gallery") then
    sinsert ("woocommerce", "Product Gallery") pl6
  else pl6

/-- The asset URLs fed to `_check_asset_for_plugin`, in processing order. -/
def assetUrls (pg : Page) : List String :=
  (srcScripts pg).map (fun sc => sc.srcAttr.getD "") ++ pg.linkTags.map LinkTag.href

/-- Whole-page `themes_detected` update of `detect_plugins_from_html`. -/
def pThemes (pg : Page) (th : List (String × String)) : List (String × String) :=
  (assetUrls pg).foldl (fun t u => themeUpd u t) th

/-- Whole-page `css_classes` update. -/
def pCss (pg : Page) (css : List String) : List String :=
  pg.classedTags.foldl (fun c classes => classListCss classes c) css

/-- Whole-page `gutenberg_blocks` update. -/
def pGutenberg (pg : Page) (gb : List String) : List String :=
  pg.divClasses.foldl (fun g cl => gutenbergUpd cl g) gb

/-- Whole-page `custom_post_types` update. -/
def pCpt (pg : Page) (cpt : List String) : List String :=
  pg.anchors.foldl (fun c h => postTypeUpd h c) cpt

/-- Indicator entries appended by `detect_plugins_from_html`, in order. -/
def pInd (pg : Page) : List String :=
  joinMap (fun sc => assetInd (ScriptTag.srcAttr sc |>.getD "")) (srcScripts pg) ++
    joinMap (fun lk => assetInd lk.href) pg.linkTags ++
    joinMap commentInd (commentStrings pg)

/-- `custom_data_attributes` effect of one tag's attribute list. -/
def dataTagUpd (attrs : List (String × String)) (cda : List String) : List String :=
  attrs.foldl
    (fun s a =>
      if strStarts a.1 "data-"
          ∧ ¬ (strContains a.1 "elementor" ∨ strContains a.1 "woocommerce"
                ∨ strContains a.1 "product") then
        sinsert (a.1 ++ "=" ++ a.2) s
      else s) cda

/-- `ajax_calls` effect of one script. -/
def ajaxUpd (sc : ScriptTag) (aj : List String) : List String :=
  match sc.strAttr with
  | some s0 =>
    if s0 ≠ "" then
      if strContains sc.text "admin-ajax.php" then
        match ajaxSearch sc.text.data with
        | some action => sinsert ("AJAX action: " ++ action) aj
        | none =>
          let entry := if sc.text.length > 100 then (strTrim sc.text).take 100 ++ "..." else sc.text
          sinsert entry aj
      else aj
    else aj
  | none => aj

/-- `rest_endpoints` effect of one script. -/
def restUpd (sc : ScriptTag) (re_ : List String) : List String :=
  match sc.strAttr with
  | some s0 =>
    if s0 ≠ "" then
      if strContains sc.text "/wp-json/" then
        match restSearch sc.text.data with
        | some g => sinsert (g.1 ++ "/" ++ g.2) re_
        | none => re_
      else re_
    else re_
  | none => re_

/-- `shortcodes` effect of one script. -/
def shortcodeUpd (sc : ScriptTag) (s : List String) : List String :=
  match sc.strAttr with
  | some s0 =>
    if s0 ≠ "" then
      (findShortcodes sc.text.data).foldl (fun acc name => sinsert name acc) s
    else s
  | none => s

/-- Indicator entry appended by one `application/json` script. -/
def jsonInd (jsonLoads : String → Option String) (sc : ScriptTag) : List String :=
  match sc.strAttr with
  | some s0 =>
    if s0 ≠ "" then
      match jsonLoads s0 with
      | some rendered => ["JSON data block: " ++ rendered.take 100 ++ "..."]
      | none => []
    else []
  | none => []

/-- Indicator entry appended by one script of the custom-JS heuristic. -/
def customJsInd (sc : ScriptTag) : List String :=
  match sc.strAttr with
  | some s0 =>
    if sc.srcAttr = none ∧ s0 ≠ "" ∧ (strTrim s0).length > 0 then
      let scriptText := strTrim s0
      if scriptText.length > 100 ∧ ¬ strContains (scriptText.take 100) "jQuery"
          ∧ ¬ strContains (scriptText.take 100) "function(" then
        ["Custom JS: " ++ scriptText.take 100 ++ "..."]
      else []
    else []
  | none => []

/-- Whole-page `custom_data_attributes` update of `detect_custom_functionality`. -/
def cData (pg : Page) (cda : List String) : List String :=
  pg.allTags.foldl (fun s attrs => dataTagUpd attrs s) cda

/-- Whole-page `ajax_calls` update. -/
def cAjax (pg : Page) (aj : List String) : List String :=
  pg.scripts.foldl (fun a sc => ajaxUpd sc a) aj

/-- Whole-page `rest_endpoints` update. -/
def cRest (pg : Page) (re_ : List String) : List String :=
  pg.scripts.foldl (fun a sc => restUpd sc a) re_

/-- Whole-page `shortcodes` update. -/
def cShort (pg : Page) (s : List String) : List String :=
  pg.scripts.foldl (fun a sc => shortcodeUpd sc a) s

/-- Indicator entries appended by `detect_custom_functionality`, in order. -/
def cInd (jsonLoads : String → Option String) (pg : Page) : List String :=
  joinMap (jsonInd jsonLoads)
      (pg.scripts.filter (fun sc => sc.typeAttr == some "application/json")) ++
    joinMap customJsInd pg.scripts

/-! ### Concrete scenarios and observers used by the claim theorems -/

/-- The detectors in source order (`analyze_site` runs plugin detection, then
custom-functionality detection). -/
def runPC (jsonLoads : String → Option String) (st : AState) (pg : Page) : AState :=
  detectCustomFunctionality jsonLoads (detectPluginsFromHtml st pg) pg

/-- The detectors in the swapped order. -/
def runCP (jsonLoads : String → Option String) (st : AState) (pg : Page) : AState :=
  detectPluginsFromHtml (detectCustomFunctionality jsonLoads st pg) pg

/-- A page with no content at all. -/
def emptyPage : Page :=
  { scripts := [], linkTags := [], classedTags := [], strings := [], divClasses := []
    anchors := [], metas := [], allTags := [] }

/-- A page whose only content is a list of anchors. -/
def anchorPage (anchors : List String) : Page := { emptyPage with anchors := anchors }

/-- `str(json.loads(...))` modelled as the identity (scalar JSON documents). -/
def jsonId : String → Option String := fun s => some s

/-- `json.loads` that always raises. -/
def jsonNone : String → Option String := fun _ => none

/-- URL model for the concrete crawls: every URL parses to the single netloc
`site`, and `urljoin` returns the (already absolute) href unchanged. -/
def umW : UrlModel := { netlocOf := fun _ => "site", urljoin := fun _ href => href }

/-- 101 repetitions of `a`: an inline script long enough for the custom-JS
heuristic. -/
def longJs : String := ⟨List.replicate 101 'a'⟩

/-- An inline script with no `src`, no library marker, length over 100. -/
def bigScriptW : ScriptTag :=
  { srcAttr := none, idAttr := none, typeAttr := none, strAttr := some longJs, text := longJs }

/-- A page carrying one inline custom script (indicator appended by
`detect_custom_functionality`) and one plugin-mentioning comment (indicator
appended by `detect_plugins_from_html`). -/
def pgOrder : Page := { emptyPage with scripts := [bigScriptW], strings := ["<!-- my plugin -->"] }

/-- Fetch environment with one failing page among four: `h` links to `a` and
`b`; `a` answers with a non-2xx status; `b` links to `c`. -/
def envA : String → FetchOutcome := fun u =>
  if u = "http://h" then .success (anchorPage ["http://a", "http://b"])
  else if u = "http://a" then .badStatus
  else if u = "http://b" then .success (anchorPage ["http://c"])
  else if u = "http://c" then .success emptyPage
  else .netError

/-- Fetch environment where every page succeeds: `h` links to `a` and `b`,
`a` links to `c`. -/
def envB : String → FetchOutcome := fun u =>
  if u = "http://h" then .success (anchorPage ["http://a", "http://b"])
  else if u = "http://a" then .success (anchorPage ["http://c"])
  else .success emptyPage

/-- Fetch environment where the homepage links to the same URL twice and that
URL always raises a network error. -/
def envD : String → FetchOutcome := fun u =>
  if u = "http://h" then .success (anchorPage ["http://d", "http://d"])
  else .netError

/-- A script tag whose only feature is its `src` attribute. -/
def pluginScript (src : String) : ScriptTag :=
  { srcAttr := some src, idAttr := none, typeAttr := none, strAttr := none, text := "" }

/-- A page with two assets of the same custom plugin (directory `pop-thing`),
so the same custom-plugin indicator string is collected twice. -/
def pgDupPlugin : Page :=
  { emptyPage with scripts :=
      [pluginScript "/wp-content/plugins/pop-thing/a.js",
       pluginScript "/wp-content/plugins/pop-thing/b.js"] }

/-- Every fetch returns the duplicate-plugin page. -/
def envC : String → FetchOutcome := fun _ => .success pgDupPlugin

/-- Every fetch raises a network error. -/
def envNone : String → FetchOutcome := fun _ => .netError

/-- A page whose single asset is a child-theme stylesheet link. -/
def pgTheme : Page :=
  { emptyPage with linkTags := [{ href := "/wp-content/themes/my-theme-child/style.css", idAttr := none }] }

/-- URLs actually passed to `session.get` during a crawl, from the ghost trace. -/
def attemptsOf (tr : List CrawlStep) : List String :=
  (tr.filter (fun s => s.attempted)).map CrawlStep.url

/-- Number of pages that were fetched successfully and run through the
detectors. -/
def successCount (tr : List CrawlStep) : Nat :=
  (tr.filter (fun s => s.succeeded)).length

/-- Theme-pattern matches fed to the child-theme inference, in processing
order. -/
def themeMatches (pg : Page) : List String :=
  (assetUrls pg).filterMap (firstPatMatch themePathPatterns)

/-- Invariant of the theme-evidence set during a crawl whose every theme
match is `my-theme-child`: all entries are either the child theme or the
inferred parent entry, and the parent entry is present as soon as any child
entry is. -/
def ThemeInv (t : List (String × String)) : Prop :=
  (∀ x ∈ t, x.1 = "my-theme-child"
      ∨ x = ("my-theme", "Parent theme detected via child theme reference"))
  ∧ ((∃ x ∈ t, x.1 = "my-theme-child") →
      ("my-theme", "Parent theme detected via child theme reference") ∈ t)

/-- A finished state with fifteen custom data attributes. -/
def st15 : AState :=
  { initState with custom_data_attributes :=
      ["a01", "a02", "a03", "a04", "a05", "a06", "a07", "a08", "a09", "a10",
       "a11", "a12", "a13", "a14", "a15"] }

/-- A finished state where one plugin has four evidence sources. -/
def stSrc4 : AState :=
  { initState with plugins_detected := [("p", "s1"), ("p", "s2"), ("p", "s3"), ("p", "SRCFOUR")] }

/-! ### Generic helper lemmas -/

lemma foldl_proj {σ β α : Type} (proj : σ → β) (step : σ → α → σ) (stepF : β → α → β)
    (h : ∀ s x, proj (step s x) = stepF (proj s) x) :
    ∀ (xs : List α) (s : σ), proj (xs.foldl step s) = xs.foldl stepF (proj s) := by
  intro xs
  induction xs with
  | nil => intro s; rfl
  | cons x xs ih => intro s; simpa [h] using ih (step s x)

lemma foldl_const {β α : Type} :
    ∀ (xs : List α) (b : β), xs.foldl (fun acc _ => acc) b = b := by
  intro xs
  induction xs with
  | nil => intro b; rfl
  | cons x xs ih => intro b; simpa using ih b

lemma foldl_app {α γ : Type} (f : α → List γ) :
    ∀ (xs : List α) (b : List γ),
      xs.foldl (fun acc x => acc ++ f x) b = b ++ joinMap f xs := by
  intro xs
  induction xs with
  | nil => intro b; simp [joinMap]
  | cons x xs ih => intro b; simp [joinMap, ih (b ++ f x), List.append_assoc]

/-! ### Characterization of the detectors by per-field updates -/

lemma checkAsset_char (st : AState) (url : String) :
    checkAssetForPlugin st url =
      { st with
          plugins_detected := pluginUpd url st.plugins_detected
          custom_code_indicators := st.custom_code_indicators ++ assetInd url
          themes_detected := themeUpd url st.themes_detected } := by
  obtain ⟨v, pl, th, mt, ct, cp, sh, re, cd, aj, gb, ind, css⟩ := st
  unfold checkAssetForPlugin pluginUpd assetInd themeUpd
  cases hp : firstPatMatch pluginPathPatterns url <;>
    cases ht : firstPatMatch themePathPatterns url <;>
    dsimp only <;> (try split_ifs) <;>
    all_goals (first | rfl | simp)

lemma procScript_char (st : AState) (sc : ScriptTag) :
    procScript st sc =
      { st with
          plugins_detected := scriptPlugins sc st.plugins_detected
          themes_detected := themeUpd (sc.srcAttr.getD "") st.themes_detected
          custom_code_indicators :=
            st.custom_code_indicators ++ assetInd (sc.srcAttr.getD "") } := by
  unfold procScript scriptPlugins addPlugin
  rw [checkAsset_char]
  cases hid : sc.idAttr <;> dsimp only <;> (try split_ifs) <;>
    all_goals (first | rfl | simp)

lemma procLink_char (st : AState) (lk : LinkTag) :
    procLink st lk =
      { st with
          plugins_detected := linkPlugins lk st.plugins_detected
          themes_detected := themeUpd lk.href st.themes_detected
          custom_code_indicators := st.custom_code_indicators ++ assetInd lk.href } := by
  unfold procLink linkPlugins addPlugin
  rw [checkAsset_char]
  cases hid : lk.idAttr <;> dsimp only <;> (try split_ifs) <;>
    all_goals (first | rfl | simp)

lemma foldPrefixes_char (cls : String) (prs : List (String × String)) : ∀ st : AState,
    prs.foldl
        (fun s pr => if strStarts cls pr.1 then addPlugin s (pr.2, "CSS Class: " ++ cls) else s)
        st =
      { st with plugins_detected :=
          (prs.foldl
            (fun p pr =>
              if strStarts cls pr.1 then sinsert (pr.2, "CSS Class: " ++ cls) p else p)
            st.plugins_detected) } := by
  induction prs with
  | nil => intro st; rfl
  | cons pr prs ih =>
    intro st
    simp only [List.foldl]
    rw [ih]
    by_cases h : strStarts cls pr.1 <;> simp [h, addPlugin]

lemma procCssClass_char (st : AState) (cls : String) :
    procCssClass st cls =
      { st with
          css_classes := sinsert cls st.css_classes
          plugins_detected := cssClassPlugins cls st.plugins_detected } := by
  unfold procCssClass cssClassPlugins
  rw [foldPrefixes_char]

lemma procClassList_char (classes : List String) : ∀ st : AState,
    procClassList st classes =
      { st with
          css_classes := classListCss classes st.css_classes
          plugins_detected := classListPlugins classes st.plugins_detected } := by
  induction classes with
  | nil => intro st; rfl
  | cons c cs ih =>
    intro st
    show procClassList (procCssClass st c) cs = _
    rw [ih, procCssClass_char]
    rfl

lemma procComment_char (st : AState) (c : String) :
    procComment st c =
      { st with
          plugins_detected := commentPlugins c st.plugins_detected
          custom_code_indicators := st.custom_code_indicators ++ commentInd c } := by
  obtain ⟨v, pl, th, mt, ct, cp, sh, re, cd, aj, gb, ind, css⟩ := st
  unfold procComment commentPlugins commentInd addPlugin
  cases hq : pluginQuoteSearch (strLower c).data <;> dsimp only <;> (try split_ifs) <;>
    all_goals (first | rfl | simp)

lemma procGutenberg_char (st : AState) (classes : List String) :
    procGutenberg st classes =
      { st with gutenberg_blocks := gutenbergUpd classes st.gutenberg_blocks } := by
  obtain ⟨v, pl, th, mt, ct, cp, sh, re, cd, aj, gb, ind, css⟩ := st
  unfold procGutenberg gutenbergUpd
  cases hh : (classes.filter (fun cls => strStarts cls "wp-block-")).head? <;>
    dsimp only <;> (try split_ifs) <;>
    all_goals (first | rfl | simp)

lemma procPostType_char (st : AState) (href : String) :
    procPostType st href =
      { st with custom_post_types := postTypeUpd href st.custom_post_types } := by
  obtain ⟨v, pl, th, mt, ct, cp, sh, re, cd, aj, gb, ind, css⟩ := st
  unfold procPostType postTypeUpd
  cases hh : postTypeSearch href.data <;> dsimp only <;> (try split_ifs) <;>
    all_goals (first | rfl | simp)

lemma procMeta_char (st : AState) (m : MetaTag) :
    procMeta st m =
      { st with plugins_detected := metaPlugins m st.plugins_detected } := by
  obtain ⟨v, pl, th, mt, ct, cp, sh, re, cd, aj, gb, ind, css⟩ := st
  unfold procMeta metaPlugins addPlugin
  cases hn : m.nameAttr <;> dsimp only <;> (try split_ifs) <;>
    all_goals (first | rfl | simp)

lemma procDataTag_char (attrs : List (String × String)) : ∀ st : AState,
    procDataTag st attrs =
      { st with custom_data_attributes := dataTagUpd attrs st.custom_data_attributes } := by
  unfold procDataTag dataTagUpd
  induction attrs with
  | nil => intro st; rfl
  | cons a as ih =>
    intro st
    simp only [List.foldl]
    rw [ih]
    split_ifs <;> (first | rfl | simp)

lemma foldShortcodes_char (names : List String) : ∀ st : AState,
    names.foldl (fun s name => { s with shortcodes := sinsert name s.shortcodes }) st =
      { st with shortcodes := names.foldl (fun acc name => sinsert name acc) st.shortcodes } := by
  induction names with
  | nil => intro st; rfl
  | cons n ns ih => intro st; simp only [List.foldl]; rw [ih]

lemma procAjaxScript_char (st : AState) (sc : ScriptTag) :
    procAjaxScript st sc =
      { st with
          ajax_calls := ajaxUpd sc st.ajax_calls
          rest_endpoints := restUpd sc st.rest_endpoints
          shortcodes := shortcodeUpd sc st.shortcodes } := by
  obtain ⟨v, pl, th, mt, ct, cp, sh, re, cd, aj, gb, ind, css⟩ := st
  unfold procAjaxScript ajaxUpd restUpd shortcodeUpd
  cases hs : sc.strAttr with
  | none => rfl
  | some s0 =>
    dsimp only
    rcases eq_or_ne s0 "" with h0 | h0
    · subst h0; simp
    · simp only [if_pos h0]
      rw [foldShortcodes_char]
      cases ha : ajaxSearch sc.text.data <;>
        cases hr : restSearch sc.text.data <;>
        split_ifs <;> dsimp only <;>
        all_goals (first | rfl | simp)

lemma procJsonScript_char (jsonLoads : String → Option String) (st : AState) (sc : ScriptTag) :
    procJsonScript jsonLoads st sc =
      { st with custom_code_indicators :=
          st.custom_code_indicators ++ jsonInd jsonLoads sc } := by
  obtain ⟨v, pl, th, mt, ct, cp, sh, re, cd, aj, gb, ind, css⟩ := st
  unfold procJsonScript jsonInd
  cases hs : sc.strAttr with
  | none => simp
  | some s0 =>
    dsimp only
    split_ifs with h0
    · cases hj : jsonLoads s0 <;> dsimp only <;> (first | rfl | simp)
    · simp

lemma procCustomJs_char (st : AState) (sc : ScriptTag) :
    procCustomJs st sc =
      { st with custom_code_indicators := st.custom_code_indicators ++ customJsInd sc } := by
  obtain ⟨v, pl, th, mt, ct, cp, sh, re, cd, aj, gb, ind, css⟩ := st
  unfold procCustomJs customJsInd
  cases hs : sc.strAttr <;> dsimp only <;> (try split_ifs) <;>
    all_goals (first | rfl | simp)


lemma foldScripts_char (scs : List ScriptTag) : ∀ st : AState,
    scs.foldl procScript st =
      { st with
          plugins_detected := (scs.foldl (fun p sc => scriptPlugins sc p) st.plugins_detected)
          themes_detected :=
            (scs.foldl (fun t sc => themeUpd (ScriptTag.srcAttr sc |>.getD "") t)
              st.themes_detected)
          custom_code_indicators :=
            (st.custom_code_indicators ++
              joinMap (fun sc => assetInd (ScriptTag.srcAttr sc |>.getD "")) scs) } := by
  induction scs with
  | nil => intro st; simp [joinMap]
  | cons sc scs ih =>
    intro st
    simp only [List.foldl]
    rw [ih, procScript_char]
    simp [joinMap]

lemma foldLinks_char (lks : List LinkTag) : ∀ st : AState,
    lks.foldl procLink st =
      { st with
          plugins_detected := (lks.foldl (fun p lk => linkPlugins lk p) st.plugins_detected)
          themes_detected := (lks.foldl (fun t lk => themeUpd lk.href t) st.themes_detected)
          custom_code_indicators :=
            (st.custom_code_indicators ++ joinMap (fun lk => assetInd lk.href) lks) } := by
  induction lks with
  | nil => intro st; simp [joinMap]
  | cons lk lks ih =>
    intro st
    simp only [List.foldl]
    rw [ih, procLink_char]
    simp [joinMap]

lemma foldClassLists_char (tags : List (List String)) : ∀ st : AState,
    tags.foldl procClassList st =
      { st with
          css_classes := (tags.foldl (fun c classes => classListCss classes c) st.css_classes)
          plugins_detected :=
            (tags.foldl (fun p classes => classListPlugins classes p) st.plugins_detected) } := by
  induction tags with
  | nil => intro st; simp
  | cons t tags ih =>
    intro st
    simp only [List.foldl]
    rw [ih, procClassList_char]

lemma foldComments_char (cs : List String) : ∀ st : AState,
    cs.foldl procComment st =
      { st with
          plugins_detected := (cs.foldl (fun p c => commentPlugins c p) st.plugins_detected)
          custom_code_indicators := (st.custom_code_indicators ++ joinMap commentInd cs) } := by
  induction cs with
  | nil => intro st; simp [joinMap]
  | cons c cs ih =>
    intro st
    simp only [List.foldl]
    rw [ih, procComment_char]
    simp [joinMap]

lemma foldGutenbergs_char (ds : List (List String)) : ∀ st : AState,
    ds.foldl procGutenberg st =
      { st with gutenberg_blocks := (ds.foldl (fun g cl => gutenbergUpd cl g) st.gutenberg_blocks) } := by
  induction ds with
  | nil => intro st; simp
  | cons d ds ih =>
    intro st
    simp only [List.foldl]
    rw [ih, procGutenberg_char]

lemma foldPostTypes_char (hs : List String) : ∀ st : AState,
    hs.foldl procPostType st =
      { st with custom_post_types := (hs.foldl (fun c h => postTypeUpd h c) st.custom_post_types) } := by
  induction hs with
  | nil => intro st; simp
  | cons h hs ih =>
    intro st
    simp only [List.foldl]
    rw [ih, procPostType_char]

lemma foldMetas_char (ms : List MetaTag) : ∀ st : AState,
    ms.foldl procMeta st =
      { st with plugins_detected := (ms.foldl (fun p m => metaPlugins m p) st.plugins_detected) } := by
  induction ms with
  | nil => intro st; simp
  | cons m ms ih =>
    intro st
    simp only [List.foldl]
    rw [ih, procMeta_char]

lemma foldDataTags_char (ts : List (List (String × String))) : ∀ st : AState,
    ts.foldl procDataTag st =
      { st with custom_data_attributes :=
          (ts.foldl (fun s attrs => dataTagUpd attrs s) st.custom_data_attributes) } := by
  induction ts with
  | nil => intro st; simp
  | cons t ts ih =>
    intro st
    simp only [List.foldl]
    rw [ih, procDataTag_char]

lemma foldAjaxScripts_char (scs : List ScriptTag) : ∀ st : AState,
    scs.foldl procAjaxScript st =
      { st with
          ajax_calls := (scs.foldl (fun a sc => ajaxUpd sc a) st.ajax_calls)
          rest_endpoints := (scs.foldl (fun a sc => restUpd sc a) st.rest_endpoints)
          shortcodes := (scs.foldl (fun a sc => shortcodeUpd sc a) st.shortcodes) } := by
  induction scs with
  | nil => intro st; simp
  | cons sc scs ih =>
    intro st
    simp only [List.foldl]
    rw [ih, procAjaxScript_char]

lemma foldJsonScripts_char (jsonLoads : String → Option String) (scs : List ScriptTag) :
    ∀ st : AState,
    scs.foldl (procJsonScript jsonLoads) st =
      { st with custom_code_indicators :=
          (st.custom_code_indicators ++ joinMap (jsonInd jsonLoads) scs) } := by
  induction scs with
  | nil => intro st; simp [joinMap]
  | cons sc scs ih =>
    intro st
    simp only [List.foldl]
    rw [ih, procJsonScript_char]
    simp [joinMap]

lemma foldCustomJss_char (scs : List ScriptTag) : ∀ st : AState,
    scs.foldl procCustomJs st =
      { st with custom_code_indicators :=
          (st.custom_code_indicators ++ joinMap customJsInd scs) } := by
  induction scs with
  | nil => intro st; simp [joinMap]
  | cons sc scs ih =>
    intro st
    simp only [List.foldl]
    rw [ih, procCustomJs_char]
    simp [joinMap]

lemma detectP_char (st : AState) (pg : Page) :
    detectPluginsFromHtml st pg =
      { st with
          plugins_detected := pPlugins pg st.plugins_detected
          themes_detected := pThemes pg st.themes_detected
          css_classes := pCss pg st.css_classes
          gutenberg_blocks := pGutenberg pg st.gutenberg_blocks
          custom_post_types := pCpt pg st.custom_post_types
          custom_code_indicators := st.custom_code_indicators ++ pInd pg } := by
  unfold detectPluginsFromHtml pPlugins pThemes pCss pGutenberg pCpt pInd srcScripts
    commentStrings assetUrls addPlugin
  simp only [foldScripts_char, foldLinks_char, foldClassLists_char, foldComments_char,
    foldGutenbergs_char, foldPostTypes_char, foldMetas_char]
  split_ifs <;> simp [List.foldl_append, List.foldl_map, List.append_assoc, joinMap, srcScripts]

lemma detectC_char (jsonLoads : String → Option String) (st : AState) (pg : Page) :
    detectCustomFunctionality jsonLoads st pg =
      { st with
          custom_data_attributes := cData pg st.custom_data_attributes
          ajax_calls := cAjax pg st.ajax_calls
          rest_endpoints := cRest pg st.rest_endpoints
          shortcodes := cShort pg st.shortcodes
          custom_code_indicators := st.custom_code_indicators ++ cInd jsonLoads pg } := by
  unfold detectCustomFunctionality cData cAjax cRest cShort cInd
  simp only [foldDataTags_char, foldAjaxScripts_char, foldJsonScripts_char, foldCustomJss_char]
  simp [List.append_assoc]


/-! ### The crawl loop satisfies the while-loop recurrence -/

lemma crawlFuel_cons_pos (maxPages pv : Nat) (url : String) (rest : List String) :
    2 ≤ crawlFuel maxPages pv (url :: rest) := by
  simp [crawlFuel]
  omega

lemma crawlFuel_fail_decr (maxPages pv : Nat) (url : String) (rest : List String) :
    crawlFuel maxPages pv rest + 1 ≤ crawlFuel maxPages pv (url :: rest) := by
  simp [crawlFuel]
  omega

lemma crawlFuel_succ_decr (maxPages pv : Nat) (url : String) (rest links : List String)
    (h : pv < maxPages) (hL : links.length ≤ maxPages - (pv + 1)) :
    crawlFuel maxPages (pv + 1) (rest ++ links) + 1 ≤ crawlFuel maxPages pv (url :: rest) := by
  unfold crawlFuel
  have hsub : maxPages - pv = (maxPages - (pv + 1)) + 1 := by omega
  rw [hsub, Nat.succ_mul]
  simp only [List.length_append, List.length_cons]
  generalize (maxPages - (pv + 1)) * (maxPages + 1) = k
  omega

lemma newLinks_len_le (um : UrlModel) (domain : String) (visited : List String)
    (url : String) (anchors : List String) (maxPages pv1 : Nat) :
    (if pv1 < maxPages then
        (extractLinks um domain visited url anchors).take (maxPages - pv1)
      else []).length ≤ maxPages - pv1 := by
  split
  · exact le_trans (List.length_take_le _ _) (le_refl _)
  · simp

lemma crawlLoopGo_fuel_irrel (env : String → FetchOutcome) (jsonLoads : String → Option String)
    (um : UrlModel) (domain : String) (maxPages : Nat) :
    ∀ n m (frontier : List String) (pv : Nat) (st : AState),
      crawlFuel maxPages pv frontier ≤ n → crawlFuel maxPages pv frontier ≤ m →
      crawlLoopGo env jsonLoads um domain maxPages n frontier pv st =
        crawlLoopGo env jsonLoads um domain maxPages m frontier pv st := by
  intro n
  induction n using Nat.strong_induction_on with
  | _ n ih =>
    intro m frontier pv st hn hm
    match frontier with
    | [] => simp [crawlLoopGo]
    | url :: rest =>
      have h2 := crawlFuel_cons_pos maxPages pv url rest
      match n, m with
      | n' + 1, m' + 1 =>
        simp only [crawlLoopGo]
        by_cases hpv : pv < maxPages
        · simp only [if_pos hpv]
          cases hf : (fetchPage env st.visited_urls url).1 with
          | none =>
            have hr := crawlFuel_fail_decr maxPages pv url rest
            dsimp only
            rw [ih n' (by omega) m' rest pv _ (by omega) (by omega)]
          | some pg =>
            dsimp only
            have hL := newLinks_len_le um domain
              (detectCustomFunctionality jsonLoads
                (detectPluginsFromHtml
                  { st with visited_urls := (fetchPage env st.visited_urls url).2.1 } pg)
                pg).visited_urls url pg.anchors maxPages (pv + 1)
            have hr := crawlFuel_succ_decr maxPages pv url rest _ hpv hL
            rw [ih n' (by omega) m' _ (pv + 1) _ (by omega) (by omega)]
        · simp only [if_neg hpv]
      | 0, _ => omega
      | _ + 1, 0 => omega

lemma crawlLoopGo_eq_crawlLoop (env : String → FetchOutcome)
    (jsonLoads : String → Option String) (um : UrlModel) (domain : String) (maxPages : Nat)
    (fuel : Nat) (frontier : List String) (pv : Nat) (st : AState)
    (h : crawlFuel maxPages pv frontier ≤ fuel) :
    crawlLoopGo env jsonLoads um domain maxPages fuel frontier pv st =
      crawlLoop env jsonLoads um domain maxPages frontier pv st :=
  crawlLoopGo_fuel_irrel env jsonLoads um domain maxPages fuel _ frontier pv st h (le_refl _)

lemma crawlLoop_nil (env : String → FetchOutcome) (jsonLoads : String → Option String)
    (um : UrlModel) (domain : String) (maxPages : Nat) (pv : Nat) (st : AState) :
    crawlLoop env jsonLoads um domain maxPages [] pv st = (st, pv, []) := by
  simp [crawlLoop, crawlLoopGo]

lemma crawlLoop_stop (env : String → FetchOutcome) (jsonLoads : String → Option String)
    (um : UrlModel) (domain : String) (maxPages : Nat) (url : String) (rest : List String)
    (pv : Nat) (st : AState) (h : ¬ pv < maxPages) :
    crawlLoop env jsonLoads um domain maxPages (url :: rest) pv st = (st, pv, []) := by
  have h2 := crawlFuel_cons_pos maxPages pv url rest
  unfold crawlLoop
  match hfu : crawlFuel maxPages pv (url :: rest), h2 with
  | n' + 1, _ => simp [crawlLoopGo, h]

lemma crawlLoop_fail (env : String → FetchOutcome) (jsonLoads : String → Option String)
    (um : UrlModel) (domain : String) (maxPages : Nat) (url : String) (rest : List String)
    (pv : Nat) (st : AState) (h : pv < maxPages)
    (hf : (fetchPage env st.visited_urls url).1 = none) :
    crawlLoop env jsonLoads um domain maxPages (url :: rest) pv st =
      (let r := crawlLoop env jsonLoads um domain maxPages rest pv
        { st with visited_urls := (fetchPage env st.visited_urls url).2.1 }
       (r.1, r.2.1,
        ⟨url, (fetchPage env st.visited_urls url).2.2, false, pv, 0, rest⟩ :: r.2.2)) := by
  have h2 := crawlFuel_cons_pos maxPages pv url rest
  have hr := crawlFuel_fail_decr maxPages pv url rest
  conv_lhs => rw [crawlLoop]
  match hfu : crawlFuel maxPages pv (url :: rest), h2, hr with
  | n' + 1, _, hr =>
    simp only [crawlLoopGo, if_pos h, hf]
    rw [crawlLoopGo_eq_crawlLoop]
    omega

lemma crawlLoop_succ (env : String → FetchOutcome) (jsonLoads : String → Option String)
    (um : UrlModel) (domain : String) (maxPages : Nat) (url : String) (rest : List String)
    (pv : Nat) (st : AState) (pg : Page) (h : pv < maxPages)
    (hf : (fetchPage env st.visited_urls url).1 = some pg) :
    crawlLoop env jsonLoads um domain maxPages (url :: rest) pv st =
      (let st2 := detectCustomFunctionality jsonLoads
        (detectPluginsFromHtml
          { st with visited_urls := (fetchPage env st.visited_urls url).2.1 } pg) pg
       let newLinks :=
         if pv + 1 < maxPages then
           (extractLinks um domain st2.visited_urls url pg.anchors).take (maxPages - (pv + 1))
         else []
       let r := crawlLoop env jsonLoads um domain maxPages (rest ++ newLinks) (pv + 1) st2
       (r.1, r.2.1,
        ⟨url, (fetchPage env st.visited_urls url).2.2, true, pv + 1, newLinks.length,
          rest ++ newLinks⟩ :: r.2.2)) := by
  have h2 := crawlFuel_cons_pos maxPages pv url rest
  conv_lhs => rw [crawlLoop]
  match hfu : crawlFuel maxPages pv (url :: rest), h2 with
  | n' + 1, _ =>
    simp only [crawlLoopGo, if_pos h, hf]
    rw [crawlLoopGo_eq_crawlLoop]
    have hL := newLinks_len_le um domain
      (detectCustomFunctionality jsonLoads
        (detectPluginsFromHtml
          { st with visited_urls := (fetchPage env st.visited_urls url).2.1 } pg) pg).visited_urls
      url pg.anchors maxPages (pv + 1)
    have hr := crawlFuel_succ_decr maxPages pv url rest _ h hL
    omega


/-! ### Crawl-level bounds and set invariants -/

lemma crawlLoopGo_pv_le (env : String → FetchOutcome) (jsonLoads : String → Option String)
    (um : UrlModel) (domain : String) (maxPages : Nat) :
    ∀ (fuel : Nat) (frontier : List String) (pv : Nat) (st : AState), pv ≤ maxPages →
      (crawlLoopGo env jsonLoads um domain maxPages fuel frontier pv st).2.1 ≤ maxPages := by
  intro fuel
  induction fuel with
  | zero => intro frontier pv st h; cases frontier <;> simpa [crawlLoopGo] using h
  | succ fuel ih =>
    intro frontier pv st h
    cases frontier with
    | nil => simpa [crawlLoopGo] using h
    | cons url rest =>
      simp only [crawlLoopGo]
      by_cases hpv : pv < maxPages
      · simp only [if_pos hpv]
        cases hf : (fetchPage env st.visited_urls url).1 with
        | none => exact ih rest pv _ h
        | some pg => exact ih _ (pv + 1) _ (by omega)
      · simp only [if_neg hpv]; exact h

lemma crawlLoopGo_enqueued_le (env : String → FetchOutcome)
    (jsonLoads : String → Option String) (um : UrlModel) (domain : String) (maxPages : Nat) :
    ∀ (fuel : Nat) (frontier : List String) (pv : Nat) (st : AState)
      (s : CrawlStep), s ∈ (crawlLoopGo env jsonLoads um domain maxPages fuel frontier pv st).2.2 →
      s.enqueued ≤ maxPages - s.pagesVisitedAfter := by
  intro fuel
  induction fuel with
  | zero => intro frontier pv st s hs; cases frontier <;> simp [crawlLoopGo] at hs
  | succ fuel ih =>
    intro frontier pv st s hs
    cases frontier with
    | nil => simp [crawlLoopGo] at hs
    | cons url rest =>
      simp only [crawlLoopGo] at hs
      by_cases hpv : pv < maxPages
      · simp only [if_pos hpv] at hs
        cases hf : (fetchPage env st.visited_urls url).1 with
        | none =>
          rw [hf] at hs
          simp only [List.mem_cons] at hs
          rcases hs with hs | hs
          · subst hs; simp
          · exact ih rest pv _ s hs
        | some pg =>
          rw [hf] at hs
          simp only [List.mem_cons] at hs
          rcases hs with hs | hs
          · subst hs
            exact newLinks_len_le um domain _ url pg.anchors maxPages (pv + 1)
          · exact ih _ (pv + 1) _ s hs
      · simp only [if_neg hpv] at hs
        simp at hs

lemma sinsert_nodup {α : Type} [DecidableEq α] (x : α) {l : List α} (h : l.Nodup) :
    (sinsert x l).Nodup := by
  unfold sinsert
  split
  · exact h
  · rename_i hx
    simp [List.nodup_append, h]
    intro contra
    exact hx contra

lemma foldl_pred {β α : Type} (P : β → Prop) (step : β → α → β)
    (h : ∀ b x, P b → P (step b x)) :
    ∀ (xs : List α) (b : β), P b → P (xs.foldl step b) := by
  intro xs
  induction xs with
  | nil => intro b hb; exact hb
  | cons x xs ih => intro b hb; exact ih (step b x) (h b x hb)

lemma gutenbergUpd_nodup (classes : List String) {gb : List String} (h : gb.Nodup) :
    (gutenbergUpd classes gb).Nodup := by
  unfold gutenbergUpd
  split
  · split
    · exact sinsert_nodup _ h
    · exact h
  · exact h

lemma postTypeUpd_nodup (href : String) {c : List String} (h : c.Nodup) :
    (postTypeUpd href c).Nodup := by
  unfold postTypeUpd
  split
  · split
    · exact h
    · exact sinsert_nodup _ h
  · exact h

lemma dataTagUpd_nodup (attrs : List (String × String)) {c : List String} (h : c.Nodup) :
    (dataTagUpd attrs c).Nodup := by
  unfold dataTagUpd
  refine foldl_pred _ _ ?_ attrs c h
  intro b x hb
  split
  · exact sinsert_nodup _ hb
  · exact hb

lemma ajaxUpd_nodup (sc : ScriptTag) {a : List String} (h : a.Nodup) :
    (ajaxUpd sc a).Nodup := by
  unfold ajaxUpd
  split
  · split
    · split
      · split
        · exact sinsert_nodup _ h
        · exact sinsert_nodup _ h
      · exact h
    · exact h
  · exact h

lemma restUpd_nodup (sc : ScriptTag) {a : List String} (h : a.Nodup) :
    (restUpd sc a).Nodup := by
  unfold restUpd
  split
  · split
    · split
      · split
        · exact sinsert_nodup _ h
        · exact h
      · exact h
    · exact h
  · exact h

lemma shortcodeUpd_nodup (sc : ScriptTag) {a : List String} (h : a.Nodup) :
    (shortcodeUpd sc a).Nodup := by
  unfold shortcodeUpd
  split
  · split
    · exact foldl_pred _ _ (fun b x hb => sinsert_nodup _ hb) _ _ h
    · exact h
  · exact h

lemma deriveThemes_keeps (st : AState) :
    (deriveThemes st).visited_urls = st.visited_urls
    ∧ (deriveThemes st).plugins_detected = st.plugins_detected
    ∧ (deriveThemes st).themes_detected = st.themes_detected
    ∧ (deriveThemes st).gutenberg_blocks = st.gutenberg_blocks
    ∧ (deriveThemes st).custom_post_types = st.custom_post_types
    ∧ (deriveThemes st).rest_endpoints = st.rest_endpoints
    ∧ (deriveThemes st).shortcodes = st.shortcodes
    ∧ (deriveThemes st).custom_data_attributes = st.custom_data_attributes
    ∧ (deriveThemes st).ajax_calls = st.ajax_calls
    ∧ (deriveThemes st).custom_code_indicators = st.custom_code_indicators := by
  unfold deriveThemes
  refine ⟨?_, ?_, ?_, ?_, ?_, ?_, ?_, ?_, ?_, ?_⟩ <;> dsimp only <;>
    (repeat' split) <;> (first | rfl | simp)

lemma crawlLoopGo_sets_nodup (env : String → FetchOutcome)
    (jsonLoads : String → Option String) (um : UrlModel) (domain : String) (maxPages : Nat) :
    ∀ (fuel : Nat) (frontier : List String) (pv : Nat) (st : AState),
      st.gutenberg_blocks.Nodup → st.custom_post_types.Nodup → st.rest_endpoints.Nodup →
      st.shortcodes.Nodup → st.custom_data_attributes.Nodup → st.ajax_calls.Nodup →
      (crawlLoopGo env jsonLoads um domain maxPages fuel frontier pv st).1.gutenberg_blocks.Nodup
      ∧ (crawlLoopGo env jsonLoads um domain maxPages fuel frontier pv st).1.custom_post_types.Nodup
      ∧ (crawlLoopGo env jsonLoads um domain maxPages fuel frontier pv st).1.rest_endpoints.Nodup
      ∧ (crawlLoopGo env jsonLoads um domain maxPages fuel frontier pv st).1.shortcodes.Nodup
      ∧ (crawlLoopGo env jsonLoads um domain maxPages fuel frontier pv st).1.custom_data_attributes.Nodup
      ∧ (crawlLoopGo env jsonLoads um domain maxPages fuel frontier pv st).1.ajax_calls.Nodup := by
  intro fuel
  induction fuel with
  | zero =>
    intro frontier pv st h1 h2 h3 h4 h5 h6
    cases frontier <;> simp [crawlLoopGo] <;> exact ⟨h1, h2, h3, h4, h5, h6⟩
  | succ fuel ih =>
    intro frontier pv st h1 h2 h3 h4 h5 h6
    cases frontier with
    | nil => simp [crawlLoopGo]; exact ⟨h1, h2, h3, h4, h5, h6⟩
    | cons url rest =>
      simp only [crawlLoopGo]
      by_cases hpv : pv < maxPages
      · simp only [if_pos hpv]
        cases hf : (fetchPage env st.visited_urls url).1 with
        | none => exact ih rest pv _ h1 h2 h3 h4 h5 h6
        | some pg =>
          refine ih _ (pv + 1) _ ?_ ?_ ?_ ?_ ?_ ?_ <;>
            simp only [detectC_char, detectP_char] <;> (try dsimp only)
          · exact foldl_pred _ _ (fun b x hb => gutenbergUpd_nodup x hb) _ _ h1
          · exact foldl_pred _ _ (fun b x hb => postTypeUpd_nodup x hb) _ _ h2
          · exact foldl_pred _ _ (fun b x hb => restUpd_nodup x hb) _ _ h3
          · exact foldl_pred _ _ (fun b x hb => shortcodeUpd_nodup x hb) _ _ h4
          · exact foldl_pred _ _ (fun b x hb => dataTagUpd_nodup x hb) _ _ h5
          · exact foldl_pred _ _ (fun b x hb => ajaxUpd_nodup x hb) _ _ h6
      · simp only [if_neg hpv]
        exact ⟨h1, h2, h3, h4, h5, h6⟩


/-! ### Substring lemmas for report containment -/

lemma isPrefixOf_refl (p : List Char) : p.isPrefixOf p = true := by
  induction p with
  | nil => rfl
  | cons c cs ih => simp [List.isPrefixOf, ih]

lemma isPrefixOf_extend {p s : List Char} (t : List Char) (h : p.isPrefixOf s = true) :
    p.isPrefixOf (s ++ t) = true := by
  induction p generalizing s with
  | nil => simp [List.isPrefixOf]
  | cons c cs ih =>
    cases s with
    | nil => simp [List.isPrefixOf] at h
    | cons d ds =>
      simp only [List.isPrefixOf, Bool.and_eq_true, beq_iff_eq] at h
      simp [List.isPrefixOf, h.1, ih h.2]

lemma isPrefixOf_append_self (a b : List Char) : a.isPrefixOf (a ++ b) = true :=
  isPrefixOf_extend b (isPrefixOf_refl a)

lemma listContains_of_prefix {s pat : List Char} (h : pat.isPrefixOf s = true) :
    listContains s pat = true := by
  cases s with
  | nil =>
    cases pat with
    | nil => rfl
    | cons c cs => simp [List.isPrefixOf] at h
  | cons c cs => simp [listContains, h]

lemma listContains_append_right (a : List Char) {b pat : List Char}
    (h : listContains b pat = true) : listContains (a ++ b) pat = true := by
  induction a with
  | nil => exact h
  | cons c cs ih => simp [listContains, ih]

lemma listContains_nil_pat (b : List Char) : listContains b [] = true := by
  cases b with
  | nil => rfl
  | cons c cs => simp [listContains, List.isPrefixOf]

lemma listContains_append_left {a pat : List Char} (b : List Char)
    (h : listContains a pat = true) : listContains (a ++ b) pat = true := by
  induction a with
  | nil =>
    simp only [listContains, List.isEmpty_iff] at h
    subst h
    exact listContains_nil_pat b
  | cons c cs ih =>
    simp only [listContains, Bool.or_eq_true] at h ⊢
    rcases h with h | h
    · exact Or.inl (isPrefixOf_extend b h)
    · exact Or.inr (ih h)

lemma strContains_append_right (a : String) {b pat : String}
    (h : strContains b pat = true) : strContains (a ++ b) pat = true := by
  unfold strContains at h ⊢
  rw [String.data_append]
  exact listContains_append_right a.data h

lemma strContains_append_left {a : String} (b : String) {pat : String}
    (h : strContains a pat = true) : strContains (a ++ b) pat = true := by
  unfold strContains at h ⊢
  rw [String.data_append]
  exact listContains_append_left b.data h

lemma strContains_refl (s : String) : strContains s s = true :=
  listContains_of_prefix (isPrefixOf_refl s.data)

/-! ### The fetcher: visited-set discipline -/

lemma fetchPage_visited (env : String → FetchOutcome) (visited : List String) (url : String) :
    (fetchPage env visited url).2.1 =
      (if url ∈ visited then visited
       else match env url with
         | .netError => visited
         | _ => visited ++ [url]) := by
  unfold fetchPage sinsert
  by_cases hv : url ∈ visited
  · simp [hv]
  · cases env url <;> simp [hv]

/-! ### The link extractor: soundness of every returned URL -/

lemma linkKeep_cases (um : UrlModel) (domain : String) (visited : List String)
    (cur href : String) {u : String} (h : linkKeep um domain visited cur href = some u) :
    u = um.urljoin cur href
    ∧ um.netlocOf u = domain
    ∧ strStarts href "#" = false
    ∧ (strStarts u "http://" = true ∨ strStarts u "https://" = true)
    ∧ u ∉ visited := by
  unfold linkKeep at h
  dsimp only at h
  split at h
  · exact absurd h (by simp)
  · rename_i hc
    split at h
    · exact absurd h (by simp)
    · rename_i hv
      simp only [Option.some.injEq] at h
      subst h
      push_neg at hc
      refine ⟨rfl, hc.1, ?_, ?_, hv⟩
      · simpa using hc.2.1
      · simpa using hc.2.2

lemma linkKeep_none_or_join (um : UrlModel) (domain : String) (visited : List String)
    (cur href : String) :
    linkKeep um domain visited cur href = none
    ∨ linkKeep um domain visited cur href = some (um.urljoin cur href) := by
  unfold linkKeep
  dsimp only
  split
  · exact Or.inl rfl
  · split
    · exact Or.inl rfl
    · exact Or.inr rfl

lemma filterMap_sublist_map {α β : Type} (f : α → Option β) (g : α → β)
    (hf : ∀ x, f x = none ∨ f x = some (g x)) :
    ∀ l : List α, (l.filterMap f).Sublist (l.map g) := by
  intro l
  induction l with
  | nil => simp
  | cons x xs ih =>
    rcases hf x with h | h <;> simp only [List.filterMap_cons, h, List.map_cons]
    · exact ih.cons (g x)
    · exact ih.cons₂ (g x)


/-! ### Child-theme inference under a single observed child theme -/

lemma sinsert_mem {α : Type} [DecidableEq α] {x y : α} {l : List α}
    (h : y ∈ sinsert x l) : y = x ∨ y ∈ l := by
  unfold sinsert at h
  split at h
  · exact Or.inr h
  · rcases List.mem_append.mp h with h | h
    · exact Or.inr h
    · exact Or.inl (List.mem_singleton.mp h)

lemma mem_sinsert_self {α : Type} [DecidableEq α] (x : α) (l : List α) : x ∈ sinsert x l := by
  unfold sinsert
  split
  · assumption
  · simp

lemma mem_sinsert_of_mem {α : Type} [DecidableEq α] (x : α) {y : α} {l : List α}
    (h : y ∈ l) : y ∈ sinsert x l := by
  unfold sinsert
  split
  · exact h
  · exact List.mem_append_left _ h

lemma themeUpd_mono {t : List (String × String)} (u : String) {x : String × String}
    (hx : x ∈ t) : x ∈ themeUpd u t := by
  unfold themeUpd
  cases firstPatMatch themePathPatterns u with
  | none => exact hx
  | some n =>
    dsimp only
    split
    · split
      · exact mem_sinsert_of_mem _ hx
      · exact mem_sinsert_of_mem _ (mem_sinsert_of_mem _ hx)
    · exact mem_sinsert_of_mem _ hx

lemma themeUpd_inv {t : List (String × String)} (u : String)
    (hmatch : ∀ n, firstPatMatch themePathPatterns u = some n → n = "my-theme-child")
    (hinv : ThemeInv t) : ThemeInv (themeUpd u t) := by
  unfold themeUpd
  cases hm : firstPatMatch themePathPatterns u with
  | none => exact hinv
  | some n =>
    have hn := hmatch n hm
    subst hn
    dsimp only
    rw [if_pos (by decide : strContains "my-theme-child" "-child" = true)]
    have hpart1 : ∀ x ∈ sinsert ("my-theme-child", u) t,
        x.1 = "my-theme-child"
        ∨ x = ("my-theme", "Parent theme detected via child theme reference") := by
      intro x hx
      rcases sinsert_mem hx with h | h
      · subst h; exact Or.inl rfl
      · exact hinv.1 x h
    split
    · rename_i hany
      refine ⟨hpart1, fun _ => ?_⟩
      obtain ⟨y, hy, hyp⟩ := List.any_eq_true.mp hany
      have hyp' : y.1 = strReplace "my-theme-child" "-child" "" := by simpa using hyp
      rw [(by decide : strReplace "my-theme-child" "-child" "" = "my-theme")] at hyp'
      rcases hpart1 y hy with h | h
      · rw [h] at hyp'
        exact absurd hyp' (by decide)
      · rw [← h]
        exact hy
    · rw [(by decide : strReplace "my-theme-child" "-child" "" = "my-theme")]
      constructor
      · intro x hx
        rcases sinsert_mem hx with h | h
        · subst h; exact Or.inr rfl
        · exact hpart1 x h
      · intro _
        exact mem_sinsert_self _ _

lemma themeUpd_child_mem {t : List (String × String)} (u : String)
    (hm : firstPatMatch themePathPatterns u = some "my-theme-child") :
    ∃ x ∈ themeUpd u t, x.1 = "my-theme-child" := by
  unfold themeUpd
  rw [hm]
  dsimp only
  rw [if_pos (by decide : strContains "my-theme-child" "-child" = true)]
  split
  · exact ⟨("my-theme-child", u), mem_sinsert_self _ _, rfl⟩
  · exact ⟨("my-theme-child", u), mem_sinsert_of_mem _ (mem_sinsert_self _ _), rfl⟩

lemma foldTheme_inv (urls : List String) : ∀ t : List (String × String),
    (∀ u ∈ urls, ∀ n, firstPatMatch themePathPatterns u = some n → n = "my-theme-child") →
    ThemeInv t →
    ThemeInv (urls.foldl (fun t u => themeUpd u t) t)
    ∧ (∀ x ∈ t, x ∈ urls.foldl (fun t u => themeUpd u t) t)
    ∧ ((∃ u ∈ urls, ∃ n, firstPatMatch themePathPatterns u = some n) →
        ∃ x ∈ urls.foldl (fun t u => themeUpd u t) t, x.1 = "my-theme-child") := by
  induction urls with
  | nil =>
    intro t _ hinv
    refine ⟨hinv, fun x hx => hx, ?_⟩
    rintro ⟨u, hu, _⟩
    cases hu
  | cons u us ih =>
    intro t hmatch hinv
    have hu := hmatch u (List.mem_cons_self u us)
    have hus : ∀ v ∈ us, ∀ n, firstPatMatch themePathPatterns v = some n →
        n = "my-theme-child" := fun v hv => hmatch v (List.mem_cons_of_mem u hv)
    obtain ⟨ih1, ih2, ih3⟩ := ih (themeUpd u t) hus (themeUpd_inv u hu hinv)
    refine ⟨ih1, fun x hx => ih2 x (themeUpd_mono u hx), ?_⟩
    rintro ⟨v, hv, n, hn⟩
    rcases List.mem_cons.mp hv with rfl | hvus
    · have hn' := hu n hn
      subst hn'
      obtain ⟨x, hx, hxc⟩ := @themeUpd_child_mem t v hn
      exact ⟨x, ih2 x hx, hxc⟩
    · exact ih3 ⟨v, hvus, n, hn⟩

lemma two_le_length_of_two_mem {α : Type} {a b : α} {l : List α}
    (ha : a ∈ l) (hb : b ∈ l) (hab : a ≠ b) : 2 ≤ l.length := by
  match l with
  | [] => cases ha
  | [x] =>
    rw [List.mem_singleton.mp ha, List.mem_singleton.mp hb] at hab
    exact absurd rfl hab
  | x :: y :: t => simp [List.length]

lemma deriveThemes_of_inv {st : AState} (hinv : ThemeInv st.themes_detected)
    (hc : ∃ x ∈ st.themes_detected, x.1 = "my-theme-child") :
    ("my-theme", "Parent theme detected via child theme reference") ∈ st.themes_detected
    ∧ (deriveThemes st).child_theme = some "my-theme-child"
    ∧ (deriveThemes st).main_theme = some "my-theme" := by
  obtain ⟨x, hx, hxc⟩ := hc
  have hpinf : ("my-theme", "Parent theme detected via child theme reference")
      ∈ st.themes_detected := hinv.2 ⟨x, hx, hxc⟩
  refine ⟨hpinf, ?_⟩
  have hcn : "my-theme-child" ∈ st.themes_detected.map Prod.fst :=
    List.mem_map.mpr ⟨x, hx, hxc⟩
  have hpn : "my-theme" ∈ st.themes_detected.map Prod.fst :=
    List.mem_map.mpr ⟨_, hpinf, rfl⟩
  have hlen : 2 ≤ (st.themes_detected.map Prod.fst).length :=
    two_le_length_of_two_mem hcn hpn (by decide)
  unfold deriveThemes
  dsimp only
  rw [if_neg (by omega), if_pos (by omega)]
  have hcfilter : "my-theme-child" ∈
      (st.themes_detected.map Prod.fst).filter (fun n => strContains n "-child") :=
    List.mem_filter.mpr ⟨hcn, by decide⟩
  cases hh : ((st.themes_detected.map Prod.fst).filter
      (fun n => strContains n "-child")).head? with
  | none =>
    rw [List.head?_eq_none_iff] at hh
    rw [hh] at hcfilter
    cases hcfilter
  | some c0 =>
    have hc0 := List.mem_filter.mp (List.mem_of_mem_head? hh)
    obtain ⟨y, hy, hyc⟩ := List.mem_map.mp hc0.1
    have hc0c : c0 = "my-theme-child" := by
      rcases hinv.1 y hy with h | h
      · rw [← hyc, h]
      · rw [h] at hyc
        rw [← hyc] at hc0
        exact absurd hc0.2 (by decide)
    subst hc0c
    dsimp only
    rw [(by decide : strReplace "my-theme-child" "-child" "" = "my-theme")]
    rw [if_pos hpn]
    exact ⟨rfl, rfl⟩


lemma listContains_cons_of {xs pat : List Char} (c : Char)
    (h : listContains xs pat = true) : listContains (c :: xs) pat = true := by
  simp [listContains, h]

/-! ### Claim theorems -/

set_option maxRecDepth 100000

/-- C1, counterexample: with page budget 3 and environment `envA` (one
non-2xx response among the crawled pages), the crawl performs 4 fetch
attempts, exceeding the budget — failed fetches do not count towards
`pages_visited`, yet each costs a `session.get`. -/
theorem c1_counterexample :
    (attemptsOf (analyzeSite envA jsonNone umW "http://h" 3).2.2).length = 4
    ∧ 3 < (attemptsOf (analyzeSite envA jsonNone umW "http://h" 3).2.2).length := by
  constructor <;> decide

/-- C1, amended: a run of the crawl driver fetches successfully (and
analyzes) at most N pages; the number of raw fetch attempts can exceed N
when some fetches fail (see the counterexample). -/
theorem c1_amended_pages_le_budget (env : String → FetchOutcome)
    (jsonLoads : String → Option String) (um : UrlModel) (base : String) (maxPages : Nat) :
    (analyzeSite env jsonLoads um base maxPages).2.1 ≤ maxPages := by
  unfold analyzeSite
  dsimp only
  exact crawlLoopGo_pv_le env jsonLoads um _ maxPages _ _ 0 initState (Nat.zero_le maxPages)

/-- C2, counterexample: in environment `envD` the URL `http://d` is linked
twice, raises a network error on each fetch, is attempted twice by
`session.get` in one run, and is never added to the visited set (the
`visited_urls.add` in `fetch_page` sits after `session.get` inside the
`try`, so a raised request skips it). -/
theorem c2_counterexample :
    (analyzeSite envD jsonNone umW "http://h" 3).1.visited_urls = ["http://h"]
    ∧ attemptsOf (analyzeSite envD jsonNone umW "http://h" 3).2.2 =
        ["http://h", "http://d", "http://d"] := by
  constructor <;> decide

/-- C2, amended: `fetch_page` adds the URL to the visited set whenever the
HTTP request completes (success or non-2xx status), and then a repeated call
short-circuits without a new request; but when the request raises a network
error the URL is not added, so such a URL may be fetched again within the
same run. -/
theorem c2_amended_visited_discipline (env : String → FetchOutcome)
    (visited : List String) (url : String) :
    (env url ≠ .netError →
      url ∈ (fetchPage env visited url).2.1
      ∧ fetchPage env (fetchPage env visited url).2.1 url =
          (none, (fetchPage env visited url).2.1, false))
    ∧ (env url = .netError → url ∉ visited → (fetchPage env visited url).2.1 = visited) := by
  by_cases hv : url ∈ visited
  · constructor
    · intro _
      constructor
      · simp [fetchPage, hv]
      · simp [fetchPage, hv]
    · intro _ hnv
      exact absurd hv hnv
  · constructor
    · intro hne
      have hv' : (fetchPage env visited url).2.1 = visited ++ [url] := by
        unfold fetchPage sinsert
        cases he : env url <;> simp [hv] <;> exact absurd he hne
      rw [hv']
      constructor
      · simp
      · simp [fetchPage]
    · intro hne _
      unfold fetchPage
      simp [hv, hne]

/-- C2, witness for the amended theorem: a completed non-2xx fetch marks the
URL visited, a raised fetch leaves the visited set unchanged. -/
theorem c2_amended_witness :
    "u" ∈ (fetchPage (fun _ => FetchOutcome.badStatus) [] "u").2.1
    ∧ (fetchPage envNone [] "v").2.1 = [] :=
  ⟨((c2_amended_visited_discipline (fun _ => FetchOutcome.badStatus) [] "u").1
      (by decide)).1,
   (c2_amended_visited_discipline envNone [] "v").2 (by decide) (by decide)⟩

/-- C4, counterexample: with budget 3 in the all-success environment `envB`,
after the second page the frontier holds 2 pending URLs while only
3 − 2 = 1 more page may be visited, so the frontier does exceed the
remaining budget (the slice only bounds what one page appends, not the
whole queue). -/
theorem c4_counterexample :
    (analyzeSite envB jsonNone umW "http://h" 3).2.2 =
      [⟨"http://h", true, true, 1, 2, ["http://a", "http://b"]⟩,
       ⟨"http://a", true, true, 2, 1, ["http://b", "http://c"]⟩,
       ⟨"http://b", true, true, 3, 0, ["http://c"]⟩]
    ∧ 3 - 2 < (["http://b", "http://c"] : List String).length := by
  constructor <;> decide

/-- C4, amended: each iteration enqueues at most `budget − pages_visited`
newly extracted links (the frontier as a whole may still exceed the
remaining budget, see the counterexample). -/
theorem c4_amended_enqueue_bounded (env : String → FetchOutcome)
    (jsonLoads : String → Option String) (um : UrlModel) (base : String) (maxPages : Nat)
    (s : CrawlStep) (hs : s ∈ (analyzeSite env jsonLoads um base maxPages).2.2) :
    s.enqueued ≤ maxPages - s.pagesVisitedAfter := by
  unfold analyzeSite at hs
  dsimp only at hs
  exact crawlLoopGo_enqueued_le env jsonLoads um _ maxPages _ _ 0 initState s hs

/-- C4, witness for the amended theorem at a concrete step of the `envB` run. -/
theorem c4_amended_witness :
    (⟨"http://h", true, true, 1, 2, ["http://a", "http://b"]⟩ : CrawlStep)
        ∈ (analyzeSite envB jsonNone umW "http://h" 3).2.2
    ∧ (2 : Nat) ≤ 3 - 1 :=
  ⟨by decide,
   c4_amended_enqueue_bounded envB jsonNone umW "http://h" 3
     ⟨"http://h", true, true, 1, 2, ["http://a", "http://b"]⟩ (by decide)⟩

/-- C7, counterexample: on a page with one plugin-mentioning comment and one
long inline script, running the two detectors in the opposite order yields a
different final state — both append to the `custom_code_indicators` list, so
the list order differs. -/
theorem c7_counterexample :
    runPC jsonNone initState pgOrder ≠ runCP jsonNone initState pgOrder := by
  decide

/-- C7, amended: the two detectors commute on every field except the
`custom_code_indicators` list: all set-valued evidence collections, the
visited set and the derived theme scalars agree for both orders, and the
indicator lists agree up to permutation (same multiset, possibly different
order). -/
theorem c7_amended_detectors_commute (jsonLoads : String → Option String)
    (st : AState) (pg : Page) :
    (runPC jsonLoads st pg).visited_urls = (runCP jsonLoads st pg).visited_urls
    ∧ (runPC jsonLoads st pg).plugins_detected = (runCP jsonLoads st pg).plugins_detected
    ∧ (runPC jsonLoads st pg).themes_detected = (runCP jsonLoads st pg).themes_detected
    ∧ (runPC jsonLoads st pg).main_theme = (runCP jsonLoads st pg).main_theme
    ∧ (runPC jsonLoads st pg).child_theme = (runCP jsonLoads st pg).child_theme
    ∧ (runPC jsonLoads st pg).custom_post_types = (runCP jsonLoads st pg).custom_post_types
    ∧ (runPC jsonLoads st pg).shortcodes = (runCP jsonLoads st pg).shortcodes
    ∧ (runPC jsonLoads st pg).rest_endpoints = (runCP jsonLoads st pg).rest_endpoints
    ∧ (runPC jsonLoads st pg).custom_data_attributes =
        (runCP jsonLoads st pg).custom_data_attributes
    ∧ (runPC jsonLoads st pg).ajax_calls = (runCP jsonLoads st pg).ajax_calls
    ∧ (runPC jsonLoads st pg).gutenberg_blocks = (runCP jsonLoads st pg).gutenberg_blocks
    ∧ (runPC jsonLoads st pg).css_classes = (runCP jsonLoads st pg).css_classes
    ∧ (runPC jsonLoads st pg).custom_code_indicators.Perm
        (runCP jsonLoads st pg).custom_code_indicators := by
  unfold runPC runCP
  simp only [detectP_char, detectC_char, true_and]
  rw [List.append_assoc, List.append_assoc]
  exact List.Perm.append_left _ List.perm_append_comm

/-- C9, counterexample: crawling a page with two assets of the same custom
plugin records the indicator string `Custom Plugin: pop-thing` twice —
`custom_code_indicators` is a Python list, not a set, so duplicates are
retained. -/
theorem c9_counterexample :
    List.count "Custom Plugin: pop-thing"
      (analyzeSite envC jsonNone umW "http://h" 1).1.custom_code_indicators = 2 := by
  decide

/-- C9, amended: the six genuinely set-typed auxiliary collections
(Gutenberg blocks, custom post types, REST endpoints, shortcodes, custom
data attributes, AJAX actions) never contain duplicates after any crawl;
the free-text custom-code indicators are excluded because they live in a
list (see the counterexample). -/
theorem c9_amended_sets_nodup (env : String → FetchOutcome)
    (jsonLoads : String → Option String) (um : UrlModel) (base : String) (maxPages : Nat) :
    (analyzeSite env jsonLoads um base maxPages).1.gutenberg_blocks.Nodup
    ∧ (analyzeSite env jsonLoads um base maxPages).1.custom_post_types.Nodup
    ∧ (analyzeSite env jsonLoads um base maxPages).1.rest_endpoints.Nodup
    ∧ (analyzeSite env jsonLoads um base maxPages).1.shortcodes.Nodup
    ∧ (analyzeSite env jsonLoads um base maxPages).1.custom_data_attributes.Nodup
    ∧ (analyzeSite env jsonLoads um base maxPages).1.ajax_calls.Nodup := by
  unfold analyzeSite crawlLoop
  dsimp only
  obtain ⟨-, -, -, hgb, hcpt, hre, hsh, hcda, haj, -⟩ := deriveThemes_keeps
    (crawlLoopGo env jsonLoads um (um.netlocOf (normalizeBase base)) maxPages
      (crawlFuel maxPages 0 [normalizeBase base]) [normalizeBase base] 0 initState).1
  rw [hgb, hcpt, hre, hsh, hcda, haj]
  exact crawlLoopGo_sets_nodup env jsonLoads um _ maxPages _ _ 0 initState
    List.nodup_nil List.nodup_nil List.nodup_nil List.nodup_nil List.nodup_nil List.nodup_nil


/-- C3: for every page whose theme-path matches are all `my-theme-child`
(and there is at least one), a budget-1 crawl of that page ends with the
inferred parent `my-theme` in the theme evidence (with the synthetic
evidence string marking it as inferred, not observed), and derives
`child_theme = my-theme-child`, `main_theme = my-theme`. -/
theorem c3_child_theme_inference (pg : Page) (jsonLoads : String → Option String)
    (um : UrlModel) (base : String)
    (h1 : themeMatches pg ≠ [])
    (h2 : ∀ n ∈ themeMatches pg, n = "my-theme-child") :
    ("my-theme", "Parent theme detected via child theme reference")
        ∈ (analyzeSite (fun _ => .success pg) jsonLoads um base 1).1.themes_detected
    ∧ (analyzeSite (fun _ => .success pg) jsonLoads um base 1).1.child_theme
        = some "my-theme-child"
    ∧ (analyzeSite (fun _ => .success pg) jsonLoads um base 1).1.main_theme
        = some "my-theme" := by
  unfold analyzeSite
  dsimp only
  rw [crawlLoop_succ (fun _ => FetchOutcome.success pg) jsonLoads um
      (um.netlocOf (normalizeBase base)) 1 (normalizeBase base) [] 0 initState pg
      (by decide) (by simp [fetchPage, initState])]
  dsimp only
  rw [if_neg (by decide : ¬ (0 + 1 < 1))]
  simp only [List.append_nil, List.nil_append]
  rw [crawlLoop_nil]
  obtain ⟨u0, hu0, n0, hn0⟩ :
      ∃ u ∈ assetUrls pg, ∃ n, firstPatMatch themePathPatterns u = some n := by
    rcases hm : themeMatches pg with - | ⟨m, ms⟩
    · exact absurd hm h1
    · have hmem : m ∈ themeMatches pg := by rw [hm]; exact List.mem_cons_self m ms
      obtain ⟨u, hu, hfu⟩ := List.mem_filterMap.mp hmem
      exact ⟨u, hu, m, hfu⟩
  have h2' : ∀ u ∈ assetUrls pg, ∀ n,
      firstPatMatch themePathPatterns u = some n → n = "my-theme-child" := by
    intro u hu n hn
    exact h2 n (List.mem_filterMap.mpr ⟨u, hu, hn⟩)
  have hinv0 : ThemeInv ([] : List (String × String)) := by
    constructor
    · intro x hx; cases hx
    · rintro ⟨x, hx, -⟩; cases hx
  obtain ⟨hinv, -, hex⟩ := foldTheme_inv (assetUrls pg) [] h2' hinv0
  have hexc := hex ⟨u0, hu0, n0, hn0⟩
  have hth2 : (detectCustomFunctionality jsonLoads
      (detectPluginsFromHtml
        { initState with visited_urls :=
            (fetchPage (fun _ => FetchOutcome.success pg) initState.visited_urls
              (normalizeBase base)).2.1 } pg) pg).themes_detected =
      (assetUrls pg).foldl (fun t u => themeUpd u t) [] := by
    simp only [detectC_char, detectP_char]
    unfold pThemes
    rfl
  have hfinal := @deriveThemes_of_inv
    (detectCustomFunctionality jsonLoads
      (detectPluginsFromHtml
        { initState with visited_urls :=
            (fetchPage (fun _ => FetchOutcome.success pg) initState.visited_urls
              (normalizeBase base)).2.1 } pg) pg)
    (by rw [hth2]; exact hinv) (by rw [hth2]; exact hexc)
  obtain ⟨-, -, hkeep, -⟩ := deriveThemes_keeps
    (detectCustomFunctionality jsonLoads
      (detectPluginsFromHtml
        { initState with visited_urls :=
            (fetchPage (fun _ => FetchOutcome.success pg) initState.visited_urls
              (normalizeBase base)).2.1 } pg) pg)
  refine ⟨?_, hfinal.2.1, hfinal.2.2⟩
  rw [hkeep]
  exact hfinal.1

/-- C3, witness at the concrete child-theme page `pgTheme`. -/
theorem c3_witness :
    themeMatches pgTheme ≠ []
    ∧ (∀ n ∈ themeMatches pgTheme, n = "my-theme-child")
    ∧ (("my-theme", "Parent theme detected via child theme reference")
        ∈ (analyzeSite (fun _ => .success pgTheme) jsonNone umW "http://h" 1).1.themes_detected
      ∧ (analyzeSite (fun _ => .success pgTheme) jsonNone umW "http://h" 1).1.child_theme
          = some "my-theme-child"
      ∧ (analyzeSite (fun _ => .success pgTheme) jsonNone umW "http://h" 1).1.main_theme
          = some "my-theme") :=
  ⟨by decide, by decide,
   c3_child_theme_inference pgTheme jsonNone umW "http://h" (by decide) (by decide)⟩

/-- C5: whatever the fetch environment, budget and site, the crawl driver
terminates (the total function `analyzeSite` satisfies the loop recurrence
proved in `crawlLoop_nil`, `crawlLoop_stop`, `crawlLoop_fail` and
`crawlLoop_succ`) and the report generator then produces a report ending in
the completion banner; with zero plugin detections the report still carries
the explicit no-plugins line instead of failing. -/
theorem c5_crawl_always_reports (env : String → FetchOutcome)
    (jsonLoads : String → Option String) (um : UrlModel) (base : String) (maxPages : Nat)
    (v : Bool) :
    strContains
        (generateReport (normalizeBase base) (analyzeSite env jsonLoads um base maxPages).1 v)
        "Analysis Complete" = true
    ∧ ((analyzeSite env jsonLoads um base maxPages).1.plugins_detected = [] →
        strContains
          (generateReport (normalizeBase base) (analyzeSite env jsonLoads um base maxPages).1 v)
          "No plugins were detected" = true) := by
  constructor
  · unfold generateReport
    exact strContains_append_right _ (by decide)
  · intro h
    unfold generateReport
    apply strContains_append_left
    apply strContains_append_left
    apply strContains_append_left
    apply strContains_append_left
    apply strContains_append_left
    apply strContains_append_left
    apply strContains_append_left
    apply strContains_append_left
    apply strContains_append_left
    apply strContains_append_right
    have hps : pluginsSection (analyzeSite env jsonLoads um base maxPages).1 v =
        "\n\n❌ No plugins were detected from front-end assets." := by
      simp [pluginsSection, h]
    rw [hps]
    decide

/-- C5, witness: the all-network-error environment yields an empty plugin
set and the report still carries the no-plugins line. -/
theorem c5_witness :
    (analyzeSite envNone jsonNone umW "site" 2).1.plugins_detected = []
    ∧ strContains
        (generateReport (normalizeBase "site") (analyzeSite envNone jsonNone umW "site" 2).1 false)
        "No plugins were detected" = true :=
  ⟨by decide, (c5_crawl_always_reports envNone jsonNone umW "site" 2 false).2 (by decide)⟩

/-- C6: every URL returned by `extract_links` resolves from some anchor of
the page, has the netloc of the site under analysis (hence the same
registrable domain), is an absolute HTTP(S) URL, is not a pure in-page
anchor (`#`-prefixed href), and is not yet visited; and the returned
sequence is a sublist of the resolved anchors in document order. -/
theorem c6_extract_links_sound (um : UrlModel) (domain : String) (visited : List String)
    (cur : String) (anchors : List String) :
    (∀ u ∈ extractLinks um domain visited cur anchors,
      um.netlocOf u = domain
      ∧ (strStarts u "http://" = true ∨ strStarts u "https://" = true)
      ∧ u ∉ visited
      ∧ ∃ href ∈ anchors, strStarts href "#" = false ∧ u = um.urljoin cur href)
    ∧ (extractLinks um domain visited cur anchors).Sublist
        (anchors.map (um.urljoin cur)) := by
  constructor
  · intro u hu
    obtain ⟨href, hhref, hk⟩ := List.mem_filterMap.mp hu
    obtain ⟨he, hnet, hhash, hscheme, hvis⟩ := linkKeep_cases um domain visited cur href hk
    exact ⟨hnet, hscheme, hvis, href, hhref, hhash, he⟩
  · exact filterMap_sublist_map _ _ (linkKeep_none_or_join um domain visited cur) anchors

/-- C6, witness at a concrete in-domain anchor. -/
theorem c6_witness :
    "http://site/x" ∈ extractLinks umW "site" [] "http://site" ["http://site/x"]
    ∧ (umW.netlocOf "http://site/x" = "site"
      ∧ (strStarts "http://site/x" "http://" = true ∨ strStarts "http://site/x" "https://" = true)
      ∧ "http://site/x" ∉ ([] : List String)
      ∧ ∃ href ∈ ["http://site/x"], strStarts href "#" = false
          ∧ "http://site/x" = umW.urljoin "http://site" href) :=
  ⟨by decide,
   (c6_extract_links_sound umW "site" [] "http://site" ["http://site/x"]).1
     "http://site/x" (by decide)⟩

/-- C8, counterexample: in verbose mode a plugin with four evidence sources
has only three listed (`sources[:3]`) and the fourth (`SRCFOUR`) is dropped
with no overflow line anywhere in the report — so not every capped listing
states its overflow.  (CPython set iteration order decides which three
sources are shown, but some source is always dropped; the model fixes
insertion order.) -/
theorem c8_counterexample :
    strContains (generateReport "x" stSrc4 true) "s3" = true
    ∧ strContains (generateReport "x" stSrc4 true) "SRCFOUR" = false
    ∧ strContains (generateReport "x" stSrc4 true) "... and" = false := by
  refine ⟨by decide, by decide, by decide⟩

/-- C8, amended: with fifteen collected custom data attributes the report's
Custom Data Attributes section lists the first ten followed by the overflow
line `... and 5 more` (the data-attribute, other-indicator and CSS-class
caps all state their overflow; the verbose per-plugin source listing is the
one capped listing that does not, see the counterexample). -/
theorem c8_amended_data_attr_overflow (base : String) (st : AState) (v : Bool)
    (h : st.custom_data_attributes.length = 15) :
    strContains (generateReport base st v)
      ("\n\nCustom Data Attributes:"
        ++ reportLines "\n- " (st.custom_data_attributes.take 10)
        ++ "\n- ... and 5 more") = true := by
  have hne : st.custom_data_attributes ≠ [] := by
    intro heq
    rw [heq] at h
    cases h
  have hd : dataAttrsPart st =
      "\n\nCustom Data Attributes:"
        ++ reportLines "\n- " (st.custom_data_attributes.take 10)
        ++ "\n- ... and 5 more" := by
    unfold dataAttrsPart
    rw [if_pos hne, if_pos (by rw [h]; decide), h]
    rfl
  unfold generateReport
  apply strContains_append_left
  apply strContains_append_left
  apply strContains_append_right
  unfold customFuncSection
  apply strContains_append_left
  apply strContains_append_left
  apply strContains_append_right
  rw [hd]
  exact strContains_refl _

/-- C8, witness for the amended theorem at a fifteen-attribute state. -/
theorem c8_amended_witness :
    st15.custom_data_attributes.length = 15
    ∧ strContains (generateReport "x" st15 false)
        ("\n\nCustom Data Attributes:"
          ++ reportLines "\n- " (st15.custom_data_attributes.take 10)
          ++ "\n- ... and 5 more") = true :=
  ⟨by decide, c8_amended_data_attr_overflow "x" st15 false (by decide)⟩

/-- C10: the report header's `Pages Analyzed` figure is the size of the
visited set; in the `envA` run that set also counts the non-2xx URL that no
detector ever saw, so the reported count 4 strictly exceeds both the number
of analyzed pages (3) and the page budget (3). -/
theorem c10_pages_analyzed_counts_visited :
    (∀ (base : String) (st : AState) (v : Bool),
      strContains (generateReport base st v)
        ("Pages Analyzed: " ++ toString st.visited_urls.length) = true)
    ∧ (analyzeSite envA jsonNone umW "http://h" 3).1.visited_urls.length = 4
    ∧ successCount (analyzeSite envA jsonNone umW "http://h" 3).2.2 = 3
    ∧ successCount (analyzeSite envA jsonNone umW "http://h" 3).2.2
        < (analyzeSite envA jsonNone umW "http://h" 3).1.visited_urls.length
    ∧ 3 < (analyzeSite envA jsonNone umW "http://h" 3).1.visited_urls.length
    ∧ strContains
        (generateReport "http://h" (analyzeSite envA jsonNone umW "http://h" 3).1 false)
        "Pages Analyzed: 4" = true := by
  refine ⟨?_, by decide, by decide, by decide, by decide, by decide⟩
  intro base st v
  unfold generateReport
  apply strContains_append_left
  apply strContains_append_left
  apply strContains_append_left
  apply strContains_append_left
  apply strContains_append_left
  apply strContains_append_left
  apply strContains_append_left
  apply strContains_append_left
  apply strContains_append_left
  apply strContains_append_left
  unfold reportHeader strContains
  simp only [String.data_append, List.append_assoc]
  apply listContains_append_right
  apply listContains_append_right
  apply listContains_append_right
  rw [List.cons_append]
  apply listContains_cons_of
  exact listContains_of_prefix (isPrefixOf_refl _)

end Woo

